import Mathlib

/-!
# Chat backend: chat resolution and real-time rooms

A shallow embedding of `controllers/chatController.js`, `models/chatModel.js`,
the socket handlers of `index.js`, `middlewares/errorHandler.js`,
`middlewares/authHandler.js`, `routes/userRoutes.js` and `createUser` of
`controllers/userController.js`, with the properties of the specification
proved (or refuted) over it.

Conventions of the embedding

* JavaScript values that reach the code from a request are `JsVal`.
  Numbers are integers (identifiers are), objects and arrays are
  represented by their reference, which is all `Set` membership and `===`
  look at; an array also carries the text its elements join to, which is
  what a template literal prints.
* The SQL tables are lists of rows; a query is a function of the tables.
* Everything the code awaits is sequential here: one call runs to
  completion before the next one starts.
-/

namespace ChatBackend

/-! ## JavaScript values -/

/-- A JavaScript value as the handlers see it. `obj` is a plain object,
known by its reference only; `arr` is an array, known by its reference and
by the text its elements join to (what `String` makes of it). A number is
an integer `n`; past 2 ^ 53 the values that occur are the integers that are
doubles, and the text of any other is that of the double nearest to it. -/
inductive JsVal where
  | undefined
  | null
  | bool (b : Bool)
  | num (n : Int)
  | str (s : String)
  | obj (ref : Nat)
  | arr (ref : Nat) (joined : String)
  deriving DecidableEq, Repr

namespace JsVal

/-- JavaScript truthiness (`!v` is the negation of this). -/
def truthy : JsVal → Bool
  | undefined => false
  | null => false
  | bool b => b
  | num n => n != 0
  | str s => s != ""
  | obj _ => true
  | arr _ _ => true

/-- The value is `undefined` or `null` (reading a property of it throws). -/
def nullish : JsVal → Bool
  | undefined => true
  | null => true
  | _ => false

end JsVal

/-- The method `Set.prototype.add`: a set keeps insertion order and holds a value once
(SameValueZero, which on `JsVal` is equality). -/
def jsSetAdd (s : List JsVal) (x : JsVal) : List JsVal :=
  if x ∈ s then s else s ++ [x]

/-- The set `new Set(iterable)`, as the list `Array.from` gives back. -/
def jsSet (xs : List JsVal) : List JsVal :=
  xs.foldl jsSetAdd []

/-! ## createChat: the request and the member list -/

/-- The `members` property of the request body. -/
inductive MembersField where
  | absent
  | array (xs : List JsVal)
  | other (v : JsVal)
  deriving DecidableEq, Repr

/-- The body of `POST /chat`, after `express.json()`. -/
structure CreateChatBody where
  title : Option String := none
  is_group : Bool := false
  members : MembersField := .absent
  deriving DecidableEq, Repr

/-- The value bound to `members` by the destructuring with default `[]`,
when it is an array (what `Array.isArray` tests). -/
def MembersField.asArray : MembersField → Option (List JsVal)
  | .absent => some []
  | .array xs => some xs
  | .other _ => none

/-- The list `memberIds` of `createChat` (lines 21-24). -/
def memberIdsOf (body : CreateChatBody) (creatorId : Int) : List JsVal :=
  match body.members.asArray with
  | some members => jsSet (members ++ [JsVal.num creatorId])
  | none => [JsVal.num creatorId]

/-! ## The stored tables

The schema is not part of the sources; the rows carry the columns the
queries of `chatModel.js` name. Ids are integer columns, which the driver
hands to JavaScript as numbers. -/

/-- A row of `users` (the columns `dbGetChatMembers` selects). -/
structure User where
  id : Int
  name : String
  email : String
  deriving DecidableEq, Repr

/-- A row of `chats`. -/
structure Chat where
  id : Int
  title : Option String
  is_group : Bool
  created_by : Int
  created_at : Nat
  updated_at : Nat
  deriving DecidableEq, Repr

/-- A row of `chat_users`. -/
structure ChatUser where
  chat_id : Int
  user_id : Int
  role : String
  joined_at : Nat
  deriving DecidableEq, Repr

/-- A row returned by `dbGetChatMembers`. -/
structure Member where
  id : Int
  name : String
  email : String
  role : String
  joined_at : Nat
  deriving DecidableEq, Repr

/-- A row of `messages`. -/
structure Message where
  id : Int
  chat_id : Int
  sender_id : Int
  content : JsVal
  message_type : JsVal
  created_at : Nat
  deriving DecidableEq, Repr

/-- The tables the chat code reads and writes. -/
structure Tables where
  users : List User := []
  chats : List Chat := []
  chat_users : List ChatUser := []
  messages : List Message := []
  deriving DecidableEq, Repr

/-- A statement that opens or closes a transaction or changes rows. -/
inductive Stmt where
  | begin
  | commit
  | rollback
  | insertChat (title : Option String) (is_group : Bool) (created_by : Int)
  | insertChatUser (chat_id : Int) (uid : JsVal) (role : String)
  | insertChatUserOnConflictDoNothing (chat_id : Int) (uid : JsVal) (role : String)
  | deleteChatUser (chat_id : Int) (uid : JsVal)
  | insertMessage (chat_id sender_id : Int) (content message_type : JsVal)
  | touchChat (chat_id : Int)
  | insertUser (name email : String)
  deriving DecidableEq, Repr

/-- An error thrown by `query`. -/
inductive DbError where
  | chatRejected
  | paramRejected (v : JsVal)
  | duplicateKey (chat_id user_id : Int)
  | badChatId
  | messageRejected
  | badLimit
  | userRejected
  deriving DecidableEq, Repr

/-- What the storage layer does during one call, as far as the code
cannot decide it: the clock, whether the insert into `chats` is refused,
and how a JavaScript value given as a user id parameter is read (`none`:
the statement is refused). -/
structure Env where
  now : Nat
  chatInsertFails : Bool
  userIdParam : JsVal → Option Int
  messageInsertFails : Bool := false
  userInsertFails : Bool := false

/-- A storage layer that takes every well-typed statement: the insert into
`chats` goes through and a number is read as that user id. -/
def Env.Healthy (env : Env) : Prop :=
  env.chatInsertFails = false ∧ ∀ n : Int, env.userIdParam (JsVal.num n) = some n

/-- A storage layer that reads numbers, and nothing else, as user ids, at
clock value `now`. -/
def numericEnv (now : Nat) : Env :=
  { now := now
    chatInsertFails := false
    userIdParam := fun v =>
      match v with
      | .num n => some n
      | _ => none }

/-- Three users, the group chat 1 of all three (created by user 1) and the
one-to-one chat 2 of users 1 and 2; the next chat id is 3. -/
def exampleTables : Tables :=
  { users := [⟨1, "ann", "ann@x"⟩, ⟨2, "bob", "bob@x"⟩, ⟨3, "cy", "cy@x"⟩]
    chats := [⟨1, some "all", true, 1, 0, 0⟩, ⟨2, none, false, 1, 1, 1⟩]
    chat_users := [⟨1, 1, "admin", 0⟩, ⟨1, 2, "member", 0⟩, ⟨1, 3, "member", 0⟩,
                   ⟨2, 1, "admin", 1⟩, ⟨2, 2, "member", 1⟩] }

/-- The database server: committed tables, the sequence behind `chats.id`
and the journal of statements received. -/
structure Db where
  tables : Tables := {}
  chatSeq : Int := 1
  journal : List Stmt := []
  messageSeq : Int := 1
  userSeq : Int := 1
  deriving DecidableEq, Repr

/-- Modelled from the spec: the schema of `chat_users` and `users` is not in
the sources. "ChatMembership ... unique per (chat, user) pair - invariant: no
duplicate membership rows for the same pair" (the constraint the `ON
CONFLICT` of `dbAddUserToChat` refers to), and `users.id` is a key. -/
def Tables.Unique (t : Tables) : Prop :=
  (t.chat_users.map fun r => (r.chat_id, r.user_id)).Nodup ∧
  (t.users.map fun u => u.id).Nodup

instance (t : Tables) : Decidable t.Unique := by
  unfold Tables.Unique
  infer_instance

/-- Modelled from the spec: the schema of `chats` is not in the sources.
The rows satisfy `Tables.Unique`, `chats.id` is a key, and the ids the
sequence will hand out are larger than every chat id in use. -/
def Db.WF (db : Db) : Prop :=
  db.tables.Unique ∧
  (db.tables.chats.map fun c => c.id).Nodup ∧
  (∀ c ∈ db.tables.chats, c.id < db.chatSeq) ∧
  (∀ r ∈ db.tables.chat_users, r.chat_id < db.chatSeq)

instance (db : Db) : Decidable db.WF := by
  unfold Db.WF
  infer_instance

/-- A server holding `exampleTables`. -/
def exampleDb : Db := { tables := exampleTables, chatSeq := 3 }

/-- A connection checked out of the pool: the server and, inside a
transaction, the tables as this connection sees them. -/
structure Client where
  db : Db
  txn : Option Tables := none
  deriving DecidableEq, Repr

namespace Client

/-- The tables the next statement of this connection works on. -/
def view (c : Client) : Tables := c.txn.getD c.db.tables

/-- Records a statement in the journal. -/
def logged (c : Client) (s : Stmt) : Client :=
  { c with db := { c.db with journal := c.db.journal ++ [s] } }

/-- Stores the tables a statement produced: in the transaction when one
is open, directly otherwise. -/
def write (c : Client) (t : Tables) : Client :=
  match c.txn with
  | some _ => { c with txn := some t }
  | none => { c with db := { c.db with tables := t } }

/-- The statement BEGIN. -/
def begin (c : Client) : Client :=
  { (c.logged .begin) with txn := some c.db.tables }

/-- The statement COMMIT. -/
def commit (c : Client) : Client :=
  let c1 := c.logged .commit
  { db := { c1.db with tables := c.view }, txn := none }

/-- The statement ROLLBACK. -/
def rollback (c : Client) : Client :=
  { (c.logged .rollback) with txn := none }

/-- The statement `INSERT INTO chats (title, is_group, created_by) VALUES
($1, $2, $3) RETURNING *`. -/
def insertChat (env : Env) (c : Client) (title : Option String) (is_group : Bool)
    (created_by : Int) : Client × Except DbError Chat :=
  let c1 := c.logged (.insertChat title is_group created_by)
  if env.chatInsertFails then (c1, .error .chatRejected)
  else
    let chat : Chat :=
      { id := c1.db.chatSeq, title := title, is_group := is_group, created_by := created_by,
        created_at := env.now, updated_at := env.now }
    let c2 : Client := { c1 with db := { c1.db with chatSeq := c1.db.chatSeq + 1 } }
    (c2.write { c2.view with chats := c2.view.chats ++ [chat] }, .ok chat)

/-- The statement `INSERT INTO chat_users (chat_id, user_id, role) VALUES
($1, $2, $3)`. -/
def insertChatUser (env : Env) (c : Client) (chat_id : Int) (uid : JsVal) (role : String) :
    Client × Except DbError Unit :=
  let c1 := c.logged (.insertChatUser chat_id uid role)
  match env.userIdParam uid with
  | none => (c1, .error (.paramRejected uid))
  | some u =>
    if c1.view.chat_users.any (fun r => r.chat_id == chat_id && r.user_id == u) then
      (c1, .error (.duplicateKey chat_id u))
    else
      let row : ChatUser := { chat_id := chat_id, user_id := u, role := role, joined_at := env.now }
      (c1.write { c1.view with chat_users := c1.view.chat_users ++ [row] }, .ok ())

end Client

/-! ## chatModel.js -/

/-- The role given to a member (line 13): `uid === created_by ? 'admin' : 'member'`. -/
def roleOf (created_by : Int) (uid : JsVal) : String :=
  if uid = JsVal.num created_by then "admin" else "member"

/-- The loop of `dbCreateChat` over `memberIds` (lines 12-15). -/
def insertMembers (env : Env) (chat_id : Int) (created_by : Int) :
    List JsVal → Client → Client × Except DbError Unit
  | [], c => (c, .ok ())
  | uid :: rest, c =>
    match c.insertChatUser env chat_id uid (roleOf created_by uid) with
    | (c1, .ok _) => insertMembers env chat_id created_by rest c1
    | (c1, .error e) => (c1, .error e)

/-- The `try` block of `dbCreateChat` (lines 6-18). -/
def dbCreateChatTry (env : Env) (client : Client) (title : Option String) (is_group : Bool)
    (created_by : Int) (memberIds : List JsVal) : Client × Except DbError Chat :=
  let c1 := client.begin
  match c1.insertChat env title is_group created_by with
  | (c2, .error e) => (c2, .error e)
  | (c2, .ok chat) =>
    match insertMembers env chat.id created_by memberIds c2 with
    | (c3, .error e) => (c3, .error e)
    | (c3, .ok _) => (c3.commit, .ok chat)

/-- The function `dbCreateChat`: the `try` block, and in `catch` a ROLLBACK
before the error is thrown again. -/
def dbCreateChat (env : Env) (db : Db) (title : Option String) (is_group : Bool)
    (created_by : Int) (memberIds : List JsVal) : Db × Except DbError Chat :=
  match dbCreateChatTry env { db := db } title is_group created_by memberIds with
  | (c, .ok chat) => (c.db, .ok chat)
  | (c, .error err) => (c.rollback.db, .error err)

/-- The rows of `chat_users` a call of `dbCreateChat` asks for, one for each
element of `memberIds` the storage layer reads as a user id. -/
def memberRows (env : Env) (chat_id created_by : Int) (memberIds : List JsVal) : List ChatUser :=
  memberIds.filterMap fun uid =>
    (env.userIdParam uid).map fun u =>
      { chat_id := chat_id, user_id := u, role := roleOf created_by uid, joined_at := env.now }

/-- The row of `memberRows` for one member, with user id 0 for a value the
storage layer does not read as a user id. -/
def memberRow (env : Env) (chat_id created_by : Int) (uid : JsVal) : ChatUser :=
  { chat_id := chat_id, user_id := (env.userIdParam uid).getD 0, role := roleOf created_by uid,
    joined_at := env.now }

/-- The row of `chats` the insert of `dbCreateChat` returns. -/
def newChat (env : Env) (db : Db) (title : Option String) (is_group : Bool) (created_by : Int) :
    Chat :=
  { id := db.chatSeq, title := title, is_group := is_group, created_by := created_by,
    created_at := env.now, updated_at := env.now }

/-- The function `dbGetChatById`: `rows[0] || null`. -/
def dbGetChatById (t : Tables) (chatId : Int) : Option Chat :=
  (t.chats.filter fun c => c.id == chatId).head?

/-- The function `dbGetChatMembers`: `chat_users` joined with `users`. -/
def dbGetChatMembers (t : Tables) (chatId : Int) : List Member :=
  (t.chat_users.filter fun cu => cu.chat_id == chatId).flatMap fun cu =>
    (t.users.filter fun u => u.id == cu.user_id).map fun u =>
      { id := u.id, name := u.name, email := u.email, role := cu.role, joined_at := cu.joined_at }

/-- The function `dbIsUserInChat`: `rowCount > 0`. -/
def dbIsUserInChat (t : Tables) (chatId userId : Int) : Bool :=
  0 < (t.chat_users.filter fun cu => cu.chat_id == chatId && cu.user_id == userId).length

/-- The function `dbGetChatsForUser`: `chats` joined with `chat_users`,
most recently updated first. -/
def dbGetChatsForUser (t : Tables) (userId : Int) : List Chat :=
  List.insertionSort (fun a b : Chat => b.updated_at ≤ a.updated_at)
    (t.chats.flatMap fun c =>
      (t.chat_users.filter fun cu => cu.chat_id == c.id && cu.user_id == userId).map fun _ => c)

/-- The function `dbAddUserToChat`: an insert that skips a conflicting row;
`rows[0] || null`. -/
def dbAddUserToChat (env : Env) (db : Db) (chatId : Int) (userId : JsVal) (role : String) :
    Db × Except DbError (Option ChatUser) :=
  let db1 := { db with journal := db.journal ++ [.insertChatUserOnConflictDoNothing chatId userId role] }
  match env.userIdParam userId with
  | none => (db1, .error (.paramRejected userId))
  | some u =>
    if db1.tables.chat_users.any (fun r => r.chat_id == chatId && r.user_id == u) then
      (db1, .ok none)
    else
      let row : ChatUser := { chat_id := chatId, user_id := u, role := role, joined_at := env.now }
      ({ db1 with tables := { db1.tables with chat_users := db1.tables.chat_users ++ [row] } },
        .ok (some row))

/-- The function `dbRemoveUserFromChat`: a delete returning the removed
rows; `rows[0] || null`. -/
def dbRemoveUserFromChat (env : Env) (db : Db) (chatId : Int) (userId : JsVal) :
    Db × Except DbError (Option ChatUser) :=
  let db1 := { db with journal := db.journal ++ [.deleteChatUser chatId userId] }
  match env.userIdParam userId with
  | none => (db1, .error (.paramRejected userId))
  | some u =>
    let hit := db1.tables.chat_users.filter fun r => r.chat_id == chatId && r.user_id == u
    let rest := db1.tables.chat_users.filter fun r => !(r.chat_id == chatId && r.user_id == u)
    ({ db1 with tables := { db1.tables with chat_users := rest } }, .ok hit.head?)

/-! ## chatController.js -/

/-- How a handler ends: a JSON response, `next(new AppError(code, message))`,
or an error thrown by a query (which `catchAsync` hands to `next`). -/
inductive Outcome (α : Type) where
  | json (status : Nat) (data : α)
  | fail (httpCode : Nat) (message : String)
  | raise (e : DbError)
  deriving DecidableEq, Repr

/-- The set comparison of `createChat` (lines 44-51) on the rows of one
chat. -/
def sameMembers (chatMembers : List Member) (memberIds : List JsVal) : Bool :=
  let memberIdsInChat := jsSet (chatMembers.map fun m => JsVal.num m.id)
  let memberIdsToAdd := jsSet memberIds
  memberIdsInChat.length == memberIdsToAdd.length &&
    memberIdsInChat.all fun id => decide (id ∈ memberIdsToAdd)

/-- The loop of `createChat` over `existingChats` (lines 34-57): the chat
it returns, if any. -/
def findExisting (t : Tables) (memberIds : List JsVal) : List Chat → Option Chat
  | [] => none
  | chat :: rest =>
    if chat.is_group then findExisting t memberIds rest
    else
      let chatMembers := dbGetChatMembers t chat.id
      if chatMembers.length == 2 && sameMembers chatMembers memberIds then some chat
      else findExisting t memberIds rest

/-- The handler `createChat`. `user` is `req.user?.id`. -/
def createChat (env : Env) (db : Db) (user : Option Int) (body : CreateChatBody) :
    Db × Outcome Chat :=
  match user with
  | none => (db, .fail 401 "Unauthorized")
  | some creatorId =>
    if creatorId = 0 then (db, .fail 401 "Unauthorized")
    else
      let memberIds := memberIdsOf body creatorId
      let existing :=
        if !body.is_group && memberIds.length == 2 then
          findExisting db.tables memberIds (dbGetChatsForUser db.tables creatorId)
        else none
      match existing with
      | some chat => (db, .json 200 chat)
      | none =>
        match dbCreateChat env db body.title body.is_group creatorId memberIds with
        | (db1, .ok chat) => (db1, .json 201 chat)
        | (db1, .error e) => (db1, .raise e)

/-- The body of `POST` and `DELETE /chat/:chatId/members`. -/
structure MemberBody where
  userId : JsVal := .undefined
  role : String := "member"
  deriving DecidableEq, Repr

/-- The handler `addUserToChat`. `chatId` is `Number(req.params.chatId)`,
`none` when that is not an integer (the first query then throws). -/
def addUserToChat (env : Env) (db : Db) (user : Option Int) (chatId : Option Int)
    (body : MemberBody) : Db × Outcome ChatUser :=
  if user.getD 0 = 0 then (db, .fail 401 "Unauthorized")
  else if !body.userId.truthy then (db, .fail 400 "userId required")
  else
    match chatId with
    | none => (db, .raise .badChatId)
    | some cid =>
      match dbGetChatById db.tables cid with
      | none => (db, .fail 404 "Chat not found")
      | some _ =>
        if !dbIsUserInChat db.tables cid (user.getD 0) then (db, .fail 403 "Forbidden")
        else
          match dbAddUserToChat env db cid body.userId body.role with
          | (db1, .error e) => (db1, .raise e)
          | (db1, .ok none) => (db1, .fail 400 "Could not add user")
          | (db1, .ok (some added)) => (db1, .json 200 added)

/-- The handler `removeUserFromChat`. -/
def removeUserFromChat (env : Env) (db : Db) (user : Option Int) (chatId : Option Int)
    (body : MemberBody) : Db × Outcome ChatUser :=
  if user.getD 0 = 0 then (db, .fail 401 "Unauthorized")
  else if !body.userId.truthy then (db, .fail 400 "userId required")
  else
    match chatId with
    | none => (db, .raise .badChatId)
    | some cid =>
      match dbGetChatById db.tables cid with
      | none => (db, .fail 404 "Chat not found")
      | some _ =>
        if !dbIsUserInChat db.tables cid (user.getD 0) then (db, .fail 403 "Forbidden")
        else
          match dbRemoveUserFromChat env db cid body.userId with
          | (db1, .error e) => (db1, .raise e)
          | (db1, .ok none) => (db1, .fail 400 "Could not remove user")
          | (db1, .ok (some removed)) => (db1, .json 200 removed)

/-- A request to one of the three handlers that change chat membership. -/
inductive ChatOp where
  | create (env : Env) (user : Option Int) (body : CreateChatBody)
  | add (env : Env) (user : Option Int) (chatId : Option Int) (body : MemberBody)
  | remove (env : Env) (user : Option Int) (chatId : Option Int) (body : MemberBody)

/-- The server after the handler of a request has run. -/
def ChatOp.run (db : Db) : ChatOp → Db
  | .create env user body => (createChat env db user body).1
  | .add env user chatId body => (addUserToChat env db user chatId body).1
  | .remove env user chatId body => (removeUserFromChat env db user chatId body).1

/-- The request goes to `removeUserFromChat`. -/
def ChatOp.isRemove : ChatOp → Bool
  | .remove _ _ _ _ => true
  | _ => false

/-- The server after a sequence of requests, handled one after the other. -/
def runOps (db : Db) (ops : List ChatOp) : Db :=
  ops.foldl ChatOp.run db

/-- Every stored chat has at least one row of `chat_users`. -/
def NoMemberlessChat (t : Tables) : Prop :=
  ∀ c ∈ t.chats, ∃ r ∈ t.chat_users, r.chat_id = c.id

/-- The member ids `dbGetChatMembers` returns for a chat are, as a set, the
ids of the list. -/
def memberSetEq (t : Tables) (chatId : Int) (ids : List JsVal) : Bool :=
  let inChat := (dbGetChatMembers t chatId).map fun m => JsVal.num m.id
  (inChat.all fun id => decide (id ∈ ids)) && (ids.all fun id => decide (id ∈ inChat))

/-! ## index.js: the socket handlers

The room table of socket.io is the set of pairs (room, socket id): `join`
puts a pair in, `leave` takes it out, and an emit addressed to a room goes
to the sockets paired with it. The room every socket has under its own id
is left out: the handlers only name rooms that start with `chat_`. -/

/-- The id of a connection (`socket.id`). -/
abbrev SocketId := String

/-- The room table of the server's adapter. -/
abbrev Rooms := List (String × SocketId)

/-- The payload of an inbound event; a property that is not there reads
as `undefined`. -/
structure EventData where
  chatId : JsVal := .undefined
  userId : JsVal := .undefined
  message : JsVal := .undefined
  deriving DecidableEq, Repr

/-- An outbound event as one connection receives it. `body` is the field
`userId` or `message` of the payload. -/
structure Delivery where
  recipient : SocketId
  event : String
  body : JsVal
  timestamp : String
  deriving DecidableEq, Repr

/-- How a listener ends: normally, or by throwing a `TypeError`. Both
carry the room table and the events sent up to that point. -/
inductive Handled where
  | done (rooms : Rooms) (sent : List Delivery)
  | threw (rooms : Rooms) (sent : List Delivery)
  deriving DecidableEq, Repr

/-- The room table a listener leaves behind. -/
def Handled.rooms : Handled → Rooms
  | .done r _ => r
  | .threw r _ => r

/-- The events a listener sent. -/
def Handled.sent : Handled → List Delivery
  | .done _ s => s
  | .threw _ s => s

/-- The double nearest to a natural number (ties go to the even mantissa),
as mantissa `m` and exponent `e` of the value `m * 2 ^ e`; `none` when the
number is past the largest double and rounds to `Infinity`. -/
def nearestDouble (a : Nat) : Option (Nat × Nat) :=
  if a < 2 ^ 53 then some (a, 0)
  else
    let e := (Nat.toDigits 2 a).length - 53
    let q := a / 2 ^ e
    let r := a % 2 ^ e
    let half := 2 ^ (e - 1)
    let m := if half < r ∨ (r = half ∧ q % 2 = 1) then q + 1 else q
    let m1 := if m = 2 ^ 53 then 2 ^ 52 else m
    let e1 := if m = 2 ^ 53 then e + 1 else e
    if 971 < e1 then none else some (m1, e1)

/-- The integer with the fewest significant digits that still reads back as
the double `m * 2 ^ e`, the one nearest to it when there are several (the
digits `Number.prototype.toString` prints). -/
def shortestDecimal (m e : Nat) : Nat :=
  let v := m * 2 ^ e
  if e = 0 then v
  else
    let up := 2 * 2 ^ e
    let down := if m = 2 ^ 52 then 2 ^ e else 2 * 2 ^ e
    let inside : Nat → Bool := fun c =>
      if m % 2 = 0 then decide (4 * v ≤ 4 * c + down) && decide (4 * c ≤ 4 * v + up)
      else decide (4 * v < 4 * c + down) && decide (4 * c < 4 * v + up)
    let len := (Nat.toDigits 10 v).length
    let pick : Nat → Option Nat := fun k =>
      let t := 10 ^ (len - k)
      let c1 := v / t * t
      let c2 := c1 + t
      match inside c1, inside c2 with
      | true, true =>
        some (if v - c1 < c2 - v then c1
          else if c2 - v < v - c1 then c2
          else if (c1 / t) % 2 = 0 then c1 else c2)
      | true, false => some c1
      | false, true => some c2
      | false, false => none
    ((List.range len).findSome? fun i => pick (i + 1)).getD v

/-- The text of a non-negative integer as `Number.prototype.toString` lays
it out: all digits up to 21 of them, exponent form beyond. -/
def decimalText (c : Nat) : String :=
  let digits := Nat.toDigits 10 c
  if digits.length ≤ 21 then String.mk digits
  else
    match (digits.reverse.dropWhile fun ch => ch == '0').reverse with
    | [] => "0"
    | [d] => String.mk [d] ++ "e+" ++ String.mk (Nat.toDigits 10 (digits.length - 1))
    | d :: rest =>
      String.mk (d :: '.' :: rest) ++ "e+" ++ String.mk (Nat.toDigits 10 (digits.length - 1))

/-- String conversion of a number that is an integer. -/
def numberText (n : Int) : String :=
  match nearestDouble n.natAbs with
  | none => if n < 0 then "-Infinity" else "Infinity"
  | some (m, e) =>
    if n < 0 then "-" ++ decimalText (shortestDecimal m e) else decimalText (shortestDecimal m e)

/-- String conversion of a value inside a template literal. The plain
objects of a payload have the `toString` of `Object.prototype`. -/
def JsVal.toStr : JsVal → String
  | .undefined => "undefined"
  | .null => "null"
  | .bool b => if b then "true" else "false"
  | .num n => numberText n
  | .str s => s
  | .obj _ => "[object Object]"
  | .arr _ joined => joined

/-- The room of a chat: the template literal with `chat_` in front of the
chat id. -/
def roomName (chatId : JsVal) : String := "chat_" ++ chatId.toStr

/-- The sockets in a room (`io.sockets.adapter.rooms.get(room)`). -/
def roomMembers (rooms : Rooms) (room : String) : List SocketId :=
  (rooms.filter fun p => p.1 == room).map fun p => p.2

/-- The call `socket.join(room)`. -/
def socketJoin (rooms : Rooms) (socket : SocketId) (room : String) : Rooms :=
  if (room, socket) ∈ rooms then rooms else rooms ++ [(room, socket)]

/-- The call `socket.leave(room)`. -/
def socketLeave (rooms : Rooms) (socket : SocketId) (room : String) : Rooms :=
  rooms.filter fun p => !(p.1 == room && p.2 == socket)

/-- The call `io.to(room).emit(event, payload)`: every socket in the room. -/
def ioToEmit (rooms : Rooms) (room event : String) (body : JsVal) (timestamp : String) :
    List Delivery :=
  (roomMembers rooms room).map fun s =>
    { recipient := s, event := event, body := body, timestamp := timestamp }

/-- The call `socket.broadcast.to(room).emit(event, payload)`: every socket
in the room but the sender. -/
def broadcastToEmit (rooms : Rooms) (socket : SocketId) (room event : String) (body : JsVal)
    (timestamp : String) : List Delivery :=
  ((roomMembers rooms room).filter fun s => s != socket).map fun s =>
    { recipient := s, event := event, body := body, timestamp := timestamp }

/-- A call a listener makes on its socket or on the server. -/
inductive SocketCall where
  | join (room : String)
  | leave (room : String)
  | broadcastTo (room event : String) (body : JsVal)
  | ioTo (room event : String) (body : JsVal)
  deriving DecidableEq, Repr

/-- A call as it ran: the room table when it started, the room table when
it returned, and what it sent. -/
structure CallRecord where
  call : SocketCall
  before : Rooms
  after : Rooms
  sent : List Delivery
  deriving DecidableEq, Repr

/-- One call of a listener of `socket`, run on the room table `rooms`. -/
def SocketCall.run (now : String) (socket : SocketId) (rooms : Rooms) :
    SocketCall → CallRecord
  | .join room =>
    { call := .join room, before := rooms, after := socketJoin rooms socket room, sent := [] }
  | .leave room =>
    { call := .leave room, before := rooms, after := socketLeave rooms socket room, sent := [] }
  | .broadcastTo room event body =>
    { call := .broadcastTo room event body, before := rooms, after := rooms,
      sent := broadcastToEmit rooms socket room event body now }
  | .ioTo room event body =>
    { call := .ioTo room event body, before := rooms, after := rooms,
      sent := ioToEmit rooms room event body now }

/-- The calls of a listener, run one after the other: each starts on the
room table the one before left. -/
def runCalls (now : String) (socket : SocketId) : Rooms → List SocketCall → List CallRecord
  | _, [] => []
  | rooms, c :: cs =>
    (c.run now socket rooms) :: runCalls now socket (c.run now socket rooms).after cs

/-- The room table and the events sent when the calls of a listener have
run. -/
def settle (rooms : Rooms) (sent : List Delivery) : List CallRecord → Handled
  | [] => .done rooms sent
  | r :: rest => settle r.after (sent ++ r.sent) rest

/-- The calls of the listener of `join_chat`, in the order of lines 64-72. -/
def joinChatCalls (d : EventData) : List SocketCall :=
  [.join (roomName d.chatId), .broadcastTo (roomName d.chatId) "user_online" d.userId]

/-- The calls of the listener of `send_message` (line 89). -/
def sendMessageCalls (d : EventData) : List SocketCall :=
  [.ioTo (roomName d.chatId) "receive_message" d.message]

/-- The calls of the listener of `leave_chat`, in the order of lines
100-107. -/
def leaveChatCalls (d : EventData) : List SocketCall :=
  [.leave (roomName d.chatId), .broadcastTo (roomName d.chatId) "user_offline" d.userId]

/-- The listener of `join_chat` (lines 61-73). `data` is `none` when the
client sent `undefined` or `null`, which the destructuring throws on; `now`
is `new Date().toISOString()`. -/
def onJoinChat (now : String) (rooms : Rooms) (socket : SocketId) (data : Option EventData) :
    Handled :=
  match data with
  | none => .threw rooms []
  | some d => settle rooms [] (runCalls now socket rooms (joinChatCalls d))

/-- The listener of `send_message` (lines 76-94). Reading `message.content`
for the log line throws when `message` is `undefined` or `null`. -/
def onSendMessage (now : String) (rooms : Rooms) (_socket : SocketId)
    (data : Option EventData) : Handled :=
  match data with
  | none => .threw rooms []
  | some d =>
    if d.message.nullish then .threw rooms []
    else settle rooms [] (runCalls now _socket rooms (sendMessageCalls d))

/-- The listener of `leave_chat` (lines 97-108). -/
def onLeaveChat (now : String) (rooms : Rooms) (socket : SocketId) (data : Option EventData) :
    Handled :=
  match data with
  | none => .threw rooms []
  | some d => settle rooms [] (runCalls now socket rooms (leaveChatCalls d))

/-- Modelled from the spec: "`dropConnection(connection)` - on disconnect,
removes the connection from every room it was a member of". The code has no
such call: socket.io itself takes a closing socket out of its rooms before
the `disconnect` listener runs, and that library is not in the sources. -/
def socketLeaveAll (rooms : Rooms) (socket : SocketId) : Rooms :=
  rooms.filter fun p => p.2 != socket

/-- The listener of `disconnect` (lines 111-113): a log line. -/
def onDisconnect (rooms : Rooms) (_socket : SocketId) : Handled :=
  .done rooms []

/-- The listener of `error` (lines 116-118): a log line. -/
def onError (rooms : Rooms) (_socket : SocketId) : Handled :=
  .done rooms []

/-- The transport of a socket closes: the socket is dropped from the room
table, then its `disconnect` listener runs. -/
def transportClose (rooms : Rooms) (socket : SocketId) : Handled :=
  onDisconnect (socketLeaveAll rooms socket) socket

/-! ## chatModel.js and chatController.js: messages -/

/-- A value as the driver binds it to a statement and the row gives it
back: `undefined` goes as NULL and comes back as `null`. How the type of a
column renders the other values is not in the sources; they are kept. -/
def sqlValue : JsVal → JsVal
  | .undefined => .null
  | v => v

/-- The statement `INSERT INTO messages (chat_id, sender_id, content,
message_type) VALUES ($1, $2, $3, $4) RETURNING *`. -/
def Client.insertMessage (env : Env) (c : Client) (chatId senderId : Int)
    (content message_type : JsVal) : Client × Except DbError Message :=
  let c1 := c.logged (.insertMessage chatId senderId content message_type)
  if env.messageInsertFails then (c1, .error .messageRejected)
  else
    let msg : Message :=
      { id := c1.db.messageSeq, chat_id := chatId, sender_id := senderId,
        content := sqlValue content, message_type := sqlValue message_type,
        created_at := env.now }
    let c2 : Client := { c1 with db := { c1.db with messageSeq := c1.db.messageSeq + 1 } }
    (c2.write { c2.view with messages := c2.view.messages ++ [msg] }, .ok msg)

/-- The statement `UPDATE chats SET updated_at = now() WHERE id = $1`. -/
def Client.touchChat (env : Env) (c : Client) (chatId : Int) : Client :=
  let c1 := c.logged (.touchChat chatId)
  c1.write { c1.view with
    chats := c1.view.chats.map fun ch =>
      if ch.id == chatId then { ch with updated_at := env.now } else ch }

/-- The default of a parameter or a destructured property written
`message_type = "text"`: it applies when the value is `undefined`. -/
def textByDefault (v : JsVal) : JsVal :=
  if v = .undefined then .str "text" else v

/-- The `try` block of `dbAddMessage` (lines 61-69). -/
def dbAddMessageTry (env : Env) (client : Client) (chatId senderId : Int)
    (content message_type : JsVal) : Client × Except DbError Message :=
  let c1 := client.begin
  match c1.insertMessage env chatId senderId content message_type with
  | (c2, .error e) => (c2, .error e)
  | (c2, .ok msg) => ((c2.touchChat env chatId).commit, .ok msg)

/-- The function `dbAddMessage`: the `try` block, and in `catch` a ROLLBACK
before the error is thrown again. Its parameter `message_type` has the
default `"text"`. -/
def dbAddMessage (env : Env) (db : Db) (chatId senderId : Int) (content message_type : JsVal) :
    Db × Except DbError Message :=
  match dbAddMessageTry env { db := db } chatId senderId content (textByDefault message_type) with
  | (c, .ok msg) => (c.db, .ok msg)
  | (c, .error err) => (c.rollback.db, .error err)

/-- The body of `POST /chat/:chatId/messages`; a property that is not there
reads as `undefined`. -/
structure MessageBody where
  content : JsVal := .undefined
  message_type : JsVal := .undefined
  deriving DecidableEq, Repr

/-- The value bound to `message_type` by the destructuring with default
`"text"`. -/
def MessageBody.messageType (body : MessageBody) : JsVal :=
  textByDefault body.message_type

/-- The handler `sendMessage`. `user` is `req.user?.id`, `chatId` is
`Number(req.params.chatId)`, `none` when that is not an integer, as `NaN`
for the path `/chat/abc/messages` (the first query then throws). -/
def sendMessage (env : Env) (db : Db) (user : Option Int) (chatId : Option Int)
    (body : MessageBody) : Db × Outcome Message :=
  if user.getD 0 = 0 then (db, .fail 401 "Unauthorized")
  else if !body.content.truthy && body.messageType == .str "text" then
    (db, .fail 400 "Message content required")
  else
    match chatId with
    | none => (db, .raise .badChatId)
    | some cid =>
      match dbGetChatById db.tables cid with
      | none => (db, .fail 404 "Chat not found")
      | some _ =>
        if !dbIsUserInChat db.tables cid (user.getD 0) then (db, .fail 403 "Forbidden")
        else
          match dbAddMessage env db cid (user.getD 0) body.content body.messageType with
          | (db1, .ok message) => (db1, .json 201 message)
          | (db1, .error e) => (db1, .raise e)

/-- A JavaScript number. Finite values are rationals (every double is); the
two zeros are one. -/
inductive JsNumber where
  | nan
  | negInf
  | fin (q : ℚ)
  | posInf
  deriving DecidableEq

/-- The function `Math.min` on two numbers. -/
def mathMin : JsNumber → JsNumber → JsNumber
  | .nan, _ => .nan
  | _, .nan => .nan
  | .negInf, _ => .negInf
  | _, .negInf => .negInf
  | .posInf, y => y
  | x, .posInf => x
  | .fin a, .fin b => .fin (min a b)

/-- The comparison `x <= y` of two numbers. -/
def JsNumber.le : JsNumber → JsNumber → Bool
  | .nan, _ => false
  | _, .nan => false
  | .negInf, _ => true
  | _, .posInf => true
  | .posInf, _ => false
  | _, .negInf => false
  | .fin a, .fin b => decide (a ≤ b)

/-- A property of `req.query`, by what `getMessages` looks at: whether it is
there, whether it is the empty string (falsy), and otherwise what `Number`
makes of it. -/
inductive QueryParam where
  | absent
  | empty
  | given (number : JsNumber)
  deriving DecidableEq

/-- The constant `limit` of `getMessages` (line 133). -/
def getMessagesLimit : QueryParam → JsNumber
  | .absent => .fin 50
  | .empty => .fin 50
  | .given x => mathMin x (.fin 200)

/-- A row returned by `dbGetMessagesByChatId`: `m.*` and the sender's name. -/
structure MessageRow where
  message : Message
  sender_name : Option String
  deriving DecidableEq, Repr

/-- The count a `LIMIT` parameter stands for; `none` when the storage layer
refuses the value (not a number, negative or with a fraction). -/
def limitParam : JsNumber → Option Nat
  | .fin q => if q.den = 1 ∧ 0 ≤ q.num then some q.num.toNat else none
  | _ => none

/-- The function `dbGetMessagesByChatId`: the messages of the chat, older
than `before` when that is given, newest first, each with the name of its
sender, cut at `limit`. -/
def dbGetMessagesByChatId (t : Tables) (chatId : Int) (limit : JsNumber) (before : Option Nat) :
    Except DbError (List MessageRow) :=
  match limitParam limit with
  | none => .error .badLimit
  | some n =>
    let hits := t.messages.filter fun m =>
      m.chat_id == chatId &&
        (match before with
         | some b => decide (m.created_at < b)
         | none => true)
    let joined := hits.flatMap fun m =>
      match t.users.filter fun u => u.id == m.sender_id with
      | [] => [{ message := m, sender_name := none }]
      | us => us.map fun u => { message := m, sender_name := some u.name }
    .ok ((List.insertionSort
      (fun a b : MessageRow => b.message.created_at ≤ a.message.created_at) joined).take n)

/-- The handler `getMessages`. `limit` is `req.query.limit`; `before` is the
instant `req.query.before` names, `none` when the property is absent. -/
def getMessages (db : Db) (user : Option Int) (chatId : Option Int) (limit : QueryParam)
    (before : Option Nat) : Db × Outcome (List MessageRow) :=
  if user.getD 0 = 0 then (db, .fail 401 "Unauthorized")
  else
    match chatId with
    | none => (db, .raise .badChatId)
    | some cid =>
      match dbGetChatById db.tables cid with
      | none => (db, .fail 404 "Chat not found")
      | some _ =>
        if !dbIsUserInChat db.tables cid (user.getD 0) then (db, .fail 403 "Forbidden")
        else
          match dbGetMessagesByChatId db.tables cid (getMessagesLimit limit) before with
          | .ok messages => (db, .json 200 messages.reverse)
          | .error e => (db, .raise e)

/-! ## appError.js and errorHandler.js -/

/-- An error as `errorHandler` reads it; `httpCode` is `none` when the
error has no such property. -/
structure JsError where
  message : String
  stack : String
  httpCode : Option Nat := none
  isOperational : Bool := false
  deriving DecidableEq, Repr

/-- The constructor of `AppError` (appError.js); `stack` is the trace
captured at the call. -/
def AppError (httpCode : Nat) (message : String) (stack : String) : JsError :=
  { message := message, stack := stack, httpCode := some httpCode, isOperational := true }

/-- The JSON response of `errorHandler`; `statusCode` is the argument of
`res.status`, `stackTrace` is `none` when the body has no such property. -/
structure ErrorResponse where
  statusCode : Option Nat
  status : String
  message : String
  stackTrace : Option String
  deriving DecidableEq, Repr

/-- The value of `err.httpCode || 500`. -/
def httpCodeOr500 : Option Nat → Nat
  | some c => if c = 0 then 500 else c
  | none => 500

/-- The middleware `errorHandler`; `nodeEnv` is `process.env.NODE_ENV`. -/
def errorHandler (nodeEnv : Option String) (err : JsError) : ErrorResponse :=
  if nodeEnv = some "production" then
    if !err.isOperational then
      { statusCode := some 500, status := "error", message := "Something went very wrong!",
        stackTrace := none }
    else
      { statusCode := err.httpCode, status := "error", message := err.message,
        stackTrace := none }
  else
    { statusCode := some (httpCodeOr500 err.httpCode), status := "error", message := err.message,
      stackTrace := some err.stack }

/-! ## userController.js: createUser and the password pattern -/

/-- A piece of the pattern of `passwordRegex`, in the order of the source:
`^`, a group `(?=.*[cls])`, a class with counts `[cls]{lo,hi}`, `$`. -/
inductive RegexNode where
  | start
  | ahead (dot cls : Char → Bool)
  | classRange (cls : Char → Bool) (lo hi : Nat)
  | finish

/-- The pattern `.*[cls]` matches at the beginning of the input: a
character of the class after characters that `.` matches. -/
def aheadMatches (dot cls : Char → Bool) : List Char → Bool
  | [] => false
  | c :: rest => cls c || (dot c && aheadMatches dot cls rest)

/-- The pieces match the input `rest`, which begins at index `pos` of the
string, one after the other. A class with counts tries every count. -/
def matchNodes : List RegexNode → Nat → List Char → Bool
  | [], _, _ => true
  | .start :: ns, pos, rest => pos == 0 && matchNodes ns pos rest
  | .finish :: ns, pos, rest => rest.isEmpty && matchNodes ns pos rest
  | .ahead dot cls :: ns, pos, rest => aheadMatches dot cls rest && matchNodes ns pos rest
  | .classRange cls lo hi :: ns, pos, rest =>
    (List.range (hi + 1)).any fun k =>
      decide (lo ≤ k) && decide (k ≤ rest.length) && (rest.take k).all cls &&
        matchNodes ns (pos + k) (rest.drop k)

/-- The method `RegExp.prototype.test`: the pattern matches from some index
of the string. A character outside the Basic Multilingual Plane is one
character here and two code units in JavaScript; it is in no class of
`passwordRegex` either way. -/
def regexTest (nodes : List RegexNode) (s : String) : Bool :=
  (List.range (s.toList.length + 1)).any fun i => matchNodes nodes i (s.toList.drop i)

/-- The class `.`: any character but a line terminator. -/
def isDotChar (c : Char) : Bool :=
  !(c == Char.ofNat 10 || c == Char.ofNat 13 || c == Char.ofNat 8232 || c == Char.ofNat 8233)

/-- The class `[@$!%*?&]`. -/
def isSpecialChar (c : Char) : Bool :=
  c == '@' || c == '$' || c == '!' || c == '%' || c == '*' || c == '?' || c == '&'

/-- The class `[A-Za-z\d@$!%*?&]`. -/
def isPasswordChar (c : Char) : Bool :=
  c.isUpper || c.isLower || c.isDigit || isSpecialChar c

/-- The constant `passwordRegex` of `createUser` (line 49). -/
def passwordRegex : List RegexNode :=
  [.start, .ahead isDotChar Char.isLower, .ahead isDotChar Char.isUpper,
   .ahead isDotChar Char.isDigit, .ahead isDotChar isSpecialChar,
   .classRange isPasswordChar 8 16, .finish]

/-- The password policy in words: 8 to 16 characters, at least one uppercase
letter, one lowercase letter, one digit and one of `@$!%*?&`, and nothing but
letters, digits and these special characters. -/
def passwordPolicy (p : String) : Bool :=
  decide (8 ≤ p.toList.length) && decide (p.toList.length ≤ 16) &&
    p.toList.any Char.isUpper && p.toList.any Char.isLower && p.toList.any Char.isDigit &&
    p.toList.any isSpecialChar &&
    p.toList.all fun c => c.isUpper || c.isLower || c.isDigit || isSpecialChar c

/-- The body of `POST /user/create`; the properties are strings when they
are there. -/
structure CreateUserBody where
  name : Option String := none
  email : Option String := none
  dob : Option String := none
  password : Option String := none
  deriving DecidableEq, Repr

/-- The test `!v` on a property that is a string or not there. -/
def strFalsy : Option String → Bool
  | none => true
  | some s => s == ""

/-- The function `dbGetUserByEmail`: `rows[0]`. -/
def dbGetUserByEmail (t : Tables) (email : String) : Option User :=
  (t.users.filter fun u => u.email == email).head?

/-- The function `dbCreateUser`; of the columns it returns the row keeps
those of `User`. -/
def dbCreateUser (env : Env) (db : Db) (name email : String) : Db × Except DbError User :=
  let db1 := { db with journal := db.journal ++ [.insertUser name email] }
  if env.userInsertFails then (db1, .error .userRejected)
  else
    let user : User := { id := db1.userSeq, name := name, email := email }
    ({ db1 with tables := { db1.tables with users := db1.tables.users ++ [user] },
                userSeq := db1.userSeq + 1 }, .ok user)

/-- The function `dbGetAllUsers`; the table lists the users in the order
they were created, and the query returns the newest first. -/
def dbGetAllUsers (t : Tables) : List User :=
  t.users.reverse

/-- The handler `createUser`, up to the response of `sendToken` (the token
and the cookie are left out). -/
def createUser (env : Env) (db : Db) (body : CreateUserBody) : Db × Outcome User :=
  if strFalsy body.name || strFalsy body.email || strFalsy body.dob || strFalsy body.password
  then (db, .fail 400 "Name, Email, DOB and Password are required!")
  else if !regexTest passwordRegex (body.password.getD "") then
    (db, .fail 400
      "Password must be 8–16 chars, include uppercase, lowercase, number & special char.")
  else
    match dbGetUserByEmail db.tables (body.email.getD "") with
    | some _ => (db, .fail 400 "A user with this email already exists.")
    | none =>
      match dbCreateUser env db (body.name.getD "") (body.email.getD "") with
      | (db1, .ok newUser) => (db1, .json 201 newUser)
      | (db1, .error e) => (db1, .raise e)

/-- The handler `listUsers`. -/
def listUsers (db : Db) : Db × Outcome (List User) :=
  (db, .json 200 (dbGetAllUsers db.tables))

/-! ## authHandler.js and userRoutes.js -/

/-- A request as the router of `/user` sees it: method, the segments of the
path after the mount point, the `Authorization` header and the `token`
cookie. -/
structure HttpRequest where
  method : String
  path : List String
  authorization : Option String := none
  cookieToken : Option String := none
  deriving DecidableEq, Repr

/-- The pieces of a list of characters between single spaces
(`String.prototype.split(" ")`). -/
def splitOnSpace : List Char → List (List Char)
  | [] => [[]]
  | c :: rest =>
    if c = ' ' then [] :: splitOnSpace rest
    else
      match splitOnSpace rest with
      | [] => [[c]]
      | piece :: pieces => (c :: piece) :: pieces

/-- The constant `headerToken` of `authHandler` (lines 6-9); `none` is
`null` or `undefined`. -/
def headerToken (authorization : Option String) : Option String :=
  let header := (authorization.getD "").toList
  if header.take 6 = "Bearer".toList then
    ((splitOnSpace header).get? 1).map String.mk
  else none

/-- The constant `token` of `authHandler` (lines 13-15); `none` when it is
falsy. -/
def requestToken (req : HttpRequest) : Option String :=
  match headerToken req.authorization with
  | some t => if t ≠ "" then some t else req.cookieToken.filter fun c => c ≠ ""
  | none => req.cookieToken.filter fun c => c ≠ ""

/-- The middleware `authHandler`: the id in the verified token, or the
`AppError` passed to `next`. `verify` is `jwt.verify` with the server's
secret, `none` when it throws. -/
def authHandler (verify : String → Option Int) (req : HttpRequest) :
    Except (Nat × String) Int :=
  match requestToken req with
  | none => .error (401, "Unauthorized: No token provided")
  | some token =>
    match verify token with
    | some id => .ok id
    | none => .error (401, "Unauthorized: Invalid or expired token")

/-- A function a route of `userRoutes.js` names. -/
inductive Handler where
  | authHandler
  | createUser
  | getUser
  | listUsers
  | loginUser
  | logoutUser
  | updateUser
  | deleteUser
  deriving DecidableEq, Repr

/-- A segment of a route path: fixed text or a parameter such as `:id`. -/
inductive Segment where
  | lit (s : String)
  | param (name : String)
  deriving DecidableEq, Repr

/-- A route: method, path and the functions registered for it, in order. -/
structure Route where
  method : String
  path : List Segment
  chain : List Handler
  deriving DecidableEq, Repr

/-- The routes of `userRoutes.js`, in the order they are registered. -/
def userRoutes : List Route :=
  [⟨"POST", [.lit "create"], [.createUser]⟩,
   ⟨"GET", [], [.authHandler, .getUser]⟩,
   ⟨"GET", [.lit "all"], [.listUsers]⟩,
   ⟨"POST", [.lit "login"], [.loginUser]⟩,
   ⟨"GET", [.lit "logout"], [.authHandler, .logoutUser]⟩,
   ⟨"PATCH", [.lit "update", .param "id"], [.authHandler, .updateUser]⟩,
   ⟨"DELETE", [.lit "delete", .param "id"], [.authHandler, .deleteUser]⟩]

/-- The characters of a text with the letters A to Z in lower case. -/
def lowerChars (s : String) : List Char :=
  s.toList.map Char.toLower

/-- The path of a request fits the path of a route, as `express.Router()`
matches by default: letters in either case, one slash at the end allowed
(it leaves an empty last segment). -/
def pathFits : List Segment → List String → Bool
  | [], [] => true
  | [], [last] => last == ""
  | .lit s :: segs, p :: ps => lowerChars s == lowerChars p && pathFits segs ps
  | .param _ :: segs, p :: ps => p != "" && pathFits segs ps
  | _, _ => false

/-- Where a request ends up: refused by a middleware with an `AppError`, in
a handler (with `req.user.id` as set on the way), or past the router. -/
inductive Routed where
  | rejected (httpCode : Nat) (message : String)
  | reached (handler : Handler) (user : Option Int)
  | unmatched
  deriving DecidableEq, Repr

/-- The functions of a route run in order: `authHandler` refuses or sets
`req.user` and calls `next`, any other function answers the request. -/
def runChain (verify : String → Option Int) (req : HttpRequest) :
    List Handler → Option Int → Routed
  | [], _ => .unmatched
  | .authHandler :: rest, _ =>
    match authHandler verify req with
    | .error (httpCode, message) => .rejected httpCode message
    | .ok id => runChain verify req rest (some id)
  | handler :: _, user => .reached handler user

/-- The router of `/user`: the first route that fits the request. -/
def userRouter (verify : String → Option Int) (req : HttpRequest) : Routed :=
  match userRoutes.find? fun r => r.method == req.method && pathFits r.path req.path with
  | some r => runChain verify req r.chain none
  | none => .unmatched

/-! ## Lemmas on `jsSet` -/

theorem mem_jsSetAdd {s : List JsVal} {x y : JsVal} :
    y ∈ jsSetAdd s x ↔ y ∈ s ∨ y = x := by
  unfold jsSetAdd
  split
  · constructor
    · intro h; exact Or.inl h
    · rintro (h | rfl)
      · exact h
      · assumption
  · simp

theorem nodup_jsSetAdd {s : List JsVal} (x : JsVal) (hs : s.Nodup) :
    (jsSetAdd s x).Nodup := by
  unfold jsSetAdd
  split
  · exact hs
  · rename_i hx
    rw [List.nodup_append]
    refine ⟨hs, List.nodup_singleton x, ?_⟩
    intro a ha hb
    rw [List.mem_singleton] at hb
    exact hx (hb ▸ ha)

theorem mem_foldl_jsSetAdd (xs acc : List JsVal) (y : JsVal) :
    y ∈ xs.foldl jsSetAdd acc ↔ y ∈ acc ∨ y ∈ xs := by
  induction xs generalizing acc with
  | nil => simp
  | cons x xs ih =>
    rw [List.foldl_cons, ih, mem_jsSetAdd, List.mem_cons]
    tauto

theorem nodup_foldl_jsSetAdd (xs acc : List JsVal) (hacc : acc.Nodup) :
    (xs.foldl jsSetAdd acc).Nodup := by
  induction xs generalizing acc with
  | nil => exact hacc
  | cons x xs ih => exact ih _ (nodup_jsSetAdd x hacc)

theorem mem_jsSet {xs : List JsVal} {y : JsVal} : y ∈ jsSet xs ↔ y ∈ xs := by
  unfold jsSet
  rw [mem_foldl_jsSetAdd]
  simp

theorem nodup_jsSet (xs : List JsVal) : (jsSet xs).Nodup :=
  nodup_foldl_jsSetAdd xs [] List.nodup_nil

theorem jsSet_eq_self_of_nodup_aux (xs acc : List JsVal) (h : (acc ++ xs).Nodup) :
    xs.foldl jsSetAdd acc = acc ++ xs := by
  induction xs generalizing acc with
  | nil => simp
  | cons x xs ih =>
    have hx : x ∉ acc := by
      intro hmem
      have := List.nodup_append.mp h
      exact this.2.2 hmem (List.mem_cons_self x xs)
    have h2 : (acc ++ [x] ++ xs).Nodup := by simpa using h
    rw [List.foldl_cons]
    have : jsSetAdd acc x = acc ++ [x] := by simp [jsSetAdd, hx]
    rw [this, ih _ h2]
    simp

/-- A set built from a duplicate-free list is that list. -/
theorem jsSet_eq_self_of_nodup {xs : List JsVal} (h : xs.Nodup) : jsSet xs = xs := by
  have := jsSet_eq_self_of_nodup_aux xs [] (by simpa using h)
  simpa [jsSet] using this

theorem memberIdsOf_nodup (body : CreateChatBody) (creatorId : Int) :
    (memberIdsOf body creatorId).Nodup := by
  unfold memberIdsOf
  split
  · exact nodup_jsSet _
  · exact List.nodup_singleton _

theorem creator_mem_memberIdsOf (body : CreateChatBody) (creatorId : Int) :
    JsVal.num creatorId ∈ memberIdsOf body creatorId := by
  unfold memberIdsOf
  split
  · rw [mem_jsSet]; simp
  · simp

/-! ## Rooms -/

theorem onJoinChat_some (now : String) (rooms : Rooms) (socket : SocketId) (d : EventData) :
    onJoinChat now rooms socket (some d) =
      .done (socketJoin rooms socket (roomName d.chatId))
        (broadcastToEmit (socketJoin rooms socket (roomName d.chatId)) socket
          (roomName d.chatId) "user_online" d.userId now) :=
  rfl

theorem onLeaveChat_some (now : String) (rooms : Rooms) (socket : SocketId) (d : EventData) :
    onLeaveChat now rooms socket (some d) =
      .done (socketLeave rooms socket (roomName d.chatId))
        (broadcastToEmit (socketLeave rooms socket (roomName d.chatId)) socket
          (roomName d.chatId) "user_offline" d.userId now) :=
  rfl

theorem onSendMessage_some (now : String) (rooms : Rooms) (socket : SocketId) (d : EventData) :
    onSendMessage now rooms socket (some d) =
      if d.message.nullish then .threw rooms []
      else .done rooms (ioToEmit rooms (roomName d.chatId) "receive_message" d.message now) := by
  show (if d.message.nullish then Handled.threw rooms []
      else settle rooms [] (runCalls now socket rooms (sendMessageCalls d))) = _
  by_cases h : d.message.nullish = true
  · rw [if_pos h, if_pos h]
  · rw [if_neg h, if_neg h]; rfl

theorem mem_roomMembers {rooms : Rooms} {room : String} {s : SocketId} :
    s ∈ roomMembers rooms room ↔ (room, s) ∈ rooms := by
  unfold roomMembers
  simp only [List.mem_map, List.mem_filter, beq_iff_eq]
  constructor
  · rintro ⟨⟨r, t⟩, ⟨hmem, hr⟩, ht⟩
    simp only at hr ht
    subst hr; subst ht
    exact hmem
  · intro h
    exact ⟨(room, s), ⟨h, rfl⟩, rfl⟩

theorem mem_socketJoin {rooms : Rooms} {socket : SocketId} {room : String}
    {p : String × SocketId} :
    p ∈ socketJoin rooms socket room ↔ p ∈ rooms ∨ p = (room, socket) := by
  unfold socketJoin
  split
  · constructor
    · intro h; exact Or.inl h
    · rintro (h | rfl)
      · exact h
      · assumption
  · simp

theorem mem_socketLeave {rooms : Rooms} {socket : SocketId} {room : String}
    {p : String × SocketId} :
    p ∈ socketLeave rooms socket room ↔ p ∈ rooms ∧ p ≠ (room, socket) := by
  unfold socketLeave
  obtain ⟨r, t⟩ := p
  simp only [List.mem_filter, Bool.not_eq_true_eq_eq_false, Bool.and_eq_false_imp, beq_iff_eq,
    beq_eq_false_iff_ne, ne_eq, Prod.mk.injEq, not_and]

theorem recipient_ioToEmit {rooms : Rooms} {room event : String} {body : JsVal}
    {timestamp : String} :
    (ioToEmit rooms room event body timestamp).map (fun x => x.recipient) =
      roomMembers rooms room := by
  unfold ioToEmit
  rw [List.map_map]
  exact List.map_id _

theorem recipient_broadcastToEmit {rooms : Rooms} {socket : SocketId} {room event : String}
    {body : JsVal} {timestamp : String} :
    (broadcastToEmit rooms socket room event body timestamp).map (fun x => x.recipient) =
      (roomMembers rooms room).filter fun s => s != socket := by
  unfold broadcastToEmit
  rw [List.map_map]
  exact List.map_id _

theorem payload_broadcastToEmit {rooms : Rooms} {socket : SocketId} {room event : String}
    {body : JsVal} {timestamp : String} {x : Delivery}
    (hx : x ∈ broadcastToEmit rooms socket room event body timestamp) :
    x.event = event ∧ x.body = body ∧ x.timestamp = timestamp := by
  unfold broadcastToEmit at hx
  rw [List.mem_map] at hx
  obtain ⟨s, _, rfl⟩ := hx
  exact ⟨rfl, rfl, rfl⟩

/-! ## dbCreateChat -/

theorem insertChatUser_txn (env : Env) (db : Db) (t : Tables) (cid : Int) (uid : JsVal)
    (role : String) :
    Client.insertChatUser env { db := db, txn := some t } cid uid role =
      match env.userIdParam uid with
      | none =>
        ({ db := { db with journal := db.journal ++ [.insertChatUser cid uid role] },
           txn := some t }, .error (.paramRejected uid))
      | some u =>
        if t.chat_users.any (fun r => r.chat_id == cid && r.user_id == u) then
          ({ db := { db with journal := db.journal ++ [.insertChatUser cid uid role] },
             txn := some t }, .error (.duplicateKey cid u))
        else
          ({ db := { db with journal := db.journal ++ [.insertChatUser cid uid role] },
             txn := some { t with chat_users := t.chat_users ++
               [{ chat_id := cid, user_id := u, role := role, joined_at := env.now }] } },
            .ok ()) := by
  unfold Client.insertChatUser
  cases h : env.userIdParam uid with
  | none => simp [Client.logged]
  | some u =>
    simp only [Client.logged, Client.view, Client.write, Option.getD_some]

/-- The loop over `memberIds` inside the transaction: it touches nothing but
the journal and the transaction's view of `chat_users`. -/
theorem insertMembers_txn (env : Env) (cid cb : Int) (ids : List JsVal) (db : Db) (t : Tables) :
    ∃ js t1,
      (insertMembers env cid cb ids { db := db, txn := some t }).1 =
        { db := { db with journal := db.journal ++ js }, txn := some t1 } ∧
      (∀ s ∈ js, ∃ uid role, s = Stmt.insertChatUser cid uid role) ∧
      t1.users = t.users ∧ (t1.chats = t.chats ∧ t1.messages = t.messages) ∧
      ((insertMembers env cid cb ids { db := db, txn := some t }).2 = .ok () →
        t1.chat_users = t.chat_users ++ memberRows env cid cb ids ∧
        (∀ uid ∈ ids, ∃ u, env.userIdParam uid = some u) ∧
        ((memberRows env cid cb ids).map fun r => r.user_id).Nodup ∧
        (∀ r ∈ t.chat_users, r.chat_id = cid →
          r.user_id ∉ (memberRows env cid cb ids).map fun r => r.user_id)) ∧
      (∀ e, (insertMembers env cid cb ids { db := db, txn := some t }).2 = .error e →
        ∃ uid ∈ ids, (env.userIdParam uid = none ∧ e = .paramRejected uid) ∨
          (∃ u, env.userIdParam uid = some u ∧ e = .duplicateKey cid u)) := by
  induction ids generalizing db t with
  | nil =>
    refine ⟨[], t, ?_, ?_, rfl, ⟨rfl, rfl⟩, ?_, ?_⟩
    · simp [insertMembers]
    · simp
    · intro _
      simp [memberRows]
    · intro e he
      simp [insertMembers] at he
  | cons uid rest ih =>
    unfold insertMembers
    rw [insertChatUser_txn]
    cases hb : env.userIdParam uid with
    | none =>
      refine ⟨[.insertChatUser cid uid (roleOf cb uid)], t, rfl, ?_, rfl, ⟨rfl, rfl⟩, ?_, ?_⟩
      · intro s hs
        rw [List.mem_singleton] at hs
        exact ⟨uid, _, hs⟩
      · intro h
        simp at h
      · intro e he
        simp at he
        exact ⟨uid, List.mem_cons_self _ _, Or.inl ⟨hb, he.symm⟩⟩
    | some u =>
      by_cases hdup : t.chat_users.any (fun r => r.chat_id == cid && r.user_id == u) = true
      · simp only [hdup, if_true]
        refine ⟨[.insertChatUser cid uid (roleOf cb uid)], t, rfl, ?_, rfl, ⟨rfl, rfl⟩, ?_, ?_⟩
        · intro s hs
          rw [List.mem_singleton] at hs
          exact ⟨uid, _, hs⟩
        · intro h
          simp at h
        · intro e he
          simp at he
          exact ⟨uid, List.mem_cons_self _ _, Or.inr ⟨u, hb, he.symm⟩⟩
      · simp only [hdup]
        obtain ⟨js, t1, h1, h2, h3, h4, h5, h6⟩ :=
          ih { db with journal := db.journal ++ [.insertChatUser cid uid (roleOf cb uid)] }
            { t with chat_users := t.chat_users ++
              [{ chat_id := cid, user_id := u, role := roleOf cb uid, joined_at := env.now }] }
        refine ⟨.insertChatUser cid uid (roleOf cb uid) :: js, t1, ?_, ?_, h3, h4, ?_, ?_⟩
        · simp only [Bool.false_eq_true, if_false]
          rw [h1]
          simp
        · intro s hs
          rw [List.mem_cons] at hs
          rcases hs with rfl | hs
          · exact ⟨uid, _, rfl⟩
          · exact h2 s hs
        · intro hok
          simp only [Bool.false_eq_true, if_false] at hok
          obtain ⟨k1, k2, k3, k4⟩ := h5 hok
          have hrows : memberRows env cid cb (uid :: rest) =
              { chat_id := cid, user_id := u, role := roleOf cb uid, joined_at := env.now } ::
                memberRows env cid cb rest := by
            simp [memberRows, hb]
          refine ⟨?_, ?_, ?_, ?_⟩
          · rw [k1, hrows]
            simp
          · intro x hx
            rw [List.mem_cons] at hx
            rcases hx with rfl | hx
            · exact ⟨u, hb⟩
            · exact k2 x hx
          · rw [hrows, List.map_cons, List.nodup_cons]
            refine ⟨?_, k3⟩
            exact k4 { chat_id := cid, user_id := u, role := roleOf cb uid, joined_at := env.now }
              (by simp) rfl
          · intro r hr hcid
            rw [hrows, List.map_cons, List.mem_cons]
            rintro (hu | hmem)
            · apply hdup
              rw [List.any_eq_true]
              exact ⟨r, hr, by simp [hcid, hu]⟩
            · exact k4 r (by simp [hr]) hcid hmem
        · intro e he
          simp only [Bool.false_eq_true, if_false] at he
          obtain ⟨x, hx, hcase⟩ := h6 e he
          exact ⟨x, List.mem_cons_of_mem _ hx, hcase⟩

theorem insertChat_txn (env : Env) (db : Db) (t : Tables) (title : Option String) (g : Bool)
    (cb : Int) (h : env.chatInsertFails = false) :
    Client.insertChat env { db := db, txn := some t } title g cb =
      ({ db := { db with journal := db.journal ++ [.insertChat title g cb],
                         chatSeq := db.chatSeq + 1 },
         txn := some { t with chats := t.chats ++ [newChat env db title g cb] } },
        .ok (newChat env db title g cb)) := by
  simp [Client.insertChat, h, Client.logged, Client.view, Client.write, newChat]

/-- What one call of `dbCreateChat` does, by its result. -/
theorem dbCreateChat_spec (env : Env) (db : Db) (title : Option String) (g : Bool) (cb : Int)
    (ids : List JsVal) :
    (∀ e, (dbCreateChat env db title g cb ids).2 = .error e →
      (dbCreateChat env db title g cb ids).1.tables = db.tables ∧
      (∃ js, (dbCreateChat env db title g cb ids).1.journal =
          db.journal ++ [Stmt.begin] ++ js ++ [Stmt.rollback] ∧
        Stmt.commit ∉ js ∧ Stmt.rollback ∉ js) ∧
      ((env.chatInsertFails = true ∧ e = .chatRejected) ∨
        (env.chatInsertFails = false ∧ ∃ uid ∈ ids,
          (env.userIdParam uid = none ∧ e = .paramRejected uid) ∨
          (∃ u, env.userIdParam uid = some u ∧ e = .duplicateKey db.chatSeq u)))) ∧
    (∀ chat, (dbCreateChat env db title g cb ids).2 = .ok chat →
      env.chatInsertFails = false ∧
      chat = newChat env db title g cb ∧
      (∀ uid ∈ ids, ∃ u, env.userIdParam uid = some u) ∧
      ((memberRows env db.chatSeq cb ids).map fun r => r.user_id).Nodup ∧
      (∀ r ∈ db.tables.chat_users, r.chat_id = db.chatSeq →
        r.user_id ∉ (memberRows env db.chatSeq cb ids).map fun r => r.user_id) ∧
      (dbCreateChat env db title g cb ids).1.tables =
        { db.tables with
          chats := db.tables.chats ++ [chat],
          chat_users := db.tables.chat_users ++ memberRows env db.chatSeq cb ids } ∧
      (dbCreateChat env db title g cb ids).1.chatSeq = db.chatSeq + 1 ∧
      (∃ js, (dbCreateChat env db title g cb ids).1.journal =
          db.journal ++ [Stmt.begin] ++ js ++ [Stmt.commit] ∧
        Stmt.commit ∉ js ∧ Stmt.rollback ∉ js)) := by
  cases hf : env.chatInsertFails with
  | true =>
    have hrun : dbCreateChat env db title g cb ids =
        ({ db with journal := db.journal ++ [Stmt.begin] ++ [Stmt.insertChat title g cb] ++
            [Stmt.rollback] }, .error .chatRejected) := by
      simp [dbCreateChat, dbCreateChatTry, Client.begin, Client.insertChat, hf, Client.logged,
        Client.rollback]
    rw [hrun]
    refine ⟨?_, ?_⟩
    · intro e he
      simp only [Except.error.injEq] at he
      refine ⟨rfl, ⟨[Stmt.insertChat title g cb], rfl, by simp, by simp⟩, Or.inl ⟨rfl, he.symm⟩⟩
    · intro chat hc
      simp at hc
  | false =>
    obtain ⟨js, t1, h1, h2, h3, h4, h5, h6⟩ := insertMembers_txn env db.chatSeq cb ids
      { db with journal := db.journal ++ [Stmt.begin] ++ [Stmt.insertChat title g cb],
                chatSeq := db.chatSeq + 1 }
      { db.tables with chats := db.tables.chats ++ [newChat env db title g cb] }
    have hbegin : Client.begin { db := db } =
        { db := { db with journal := db.journal ++ [Stmt.begin] }, txn := some db.tables } := by
      simp [Client.begin, Client.logged]
    have hjs : Stmt.commit ∉ js ∧ Stmt.rollback ∉ js := by
      constructor <;>
      · intro hmem
        obtain ⟨uid, role, hs⟩ := h2 _ hmem
        cases hs
    have htry : dbCreateChatTry env { db := db } title g cb ids =
        match insertMembers env db.chatSeq cb ids
          { db := { db with journal := db.journal ++ [Stmt.begin] ++ [Stmt.insertChat title g cb],
                            chatSeq := db.chatSeq + 1 },
            txn := some { db.tables with
              chats := db.tables.chats ++ [newChat env db title g cb] } } with
        | (c3, .error e) => (c3, .error e)
        | (c3, .ok _) => (c3.commit, .ok (newChat env db title g cb)) := by
      unfold dbCreateChatTry
      rw [hbegin]
      dsimp only
      rw [insertChat_txn _ _ _ _ _ _ hf]
      simp [newChat]
    unfold dbCreateChat
    rw [htry]
    cases hres : insertMembers env db.chatSeq cb ids
        { db := { db with journal := db.journal ++ [Stmt.begin] ++ [Stmt.insertChat title g cb],
                          chatSeq := db.chatSeq + 1 },
          txn := some { db.tables with
            chats := db.tables.chats ++ [newChat env db title g cb] } } with
    | mk c3 out =>
      rw [hres] at h1 h5 h6
      simp only at h1 h5 h6
      subst h1
      cases out with
      | error e =>
        simp only
        refine ⟨?_, ?_⟩
        · intro e1 he1
          simp only [Except.error.injEq] at he1
          subst he1
          refine ⟨by simp [Client.rollback, Client.logged], ?_,
            Or.inr ⟨by first | rfl | trivial, ?_⟩⟩
          · refine ⟨Stmt.insertChat title g cb :: js, ?_, ?_, ?_⟩
            · simp [Client.rollback, Client.logged]
            · simp [hjs.1]
            · simp [hjs.2]
          · exact h6 e rfl
        · intro chat hc
          simp at hc
      | ok u =>
        simp only
        refine ⟨?_, ?_⟩
        · intro e he
          simp at he
        · intro chat hc
          simp only [Except.ok.injEq] at hc
          subst hc
          obtain ⟨k1, k2, k3, k4⟩ := h5 rfl
          refine ⟨by first | rfl | trivial, rfl, k2, k3, ?_, ?_, ?_, ?_⟩
          · intro r hr hcid
            exact k4 r (by simp [hr]) hcid
          · simp only [Client.commit, Client.logged, Client.view, Option.getD_some]
            obtain ⟨h4, hm⟩ := h4
            cases t1
            simp only at h3 h4 hm k1
            subst h3; subst h4; subst hm; subst k1
            simp
          · simp [Client.commit, Client.logged]
          · refine ⟨Stmt.insertChat title g cb :: js, ?_, ?_, ?_⟩
            · simp [Client.commit, Client.logged]
            · simp [hjs.1]
            · simp [hjs.2]

theorem memberRows_cons_some {env : Env} {cid cb : Int} {uid : JsVal} {rest : List JsVal}
    {u : Int} (hb : env.userIdParam uid = some u) :
    memberRows env cid cb (uid :: rest) =
      { chat_id := cid, user_id := u, role := roleOf cb uid, joined_at := env.now } ::
        memberRows env cid cb rest := by
  simp [memberRows, hb]

/-- The loop over `memberIds` goes through when every member is read as a
user id, no two as the same one, and none as a user the chat already has. -/
theorem insertMembers_ok_of (env : Env) (cid cb : Int) (ids : List JsVal) (db : Db) (t : Tables)
    (hbind : ∀ uid ∈ ids, ∃ u, env.userIdParam uid = some u)
    (hnd : ((memberRows env cid cb ids).map fun r => r.user_id).Nodup)
    (hfresh : ∀ r ∈ t.chat_users, r.chat_id = cid →
      r.user_id ∉ (memberRows env cid cb ids).map fun r => r.user_id) :
    (insertMembers env cid cb ids { db := db, txn := some t }).2 = .ok () := by
  induction ids generalizing db t with
  | nil => simp [insertMembers]
  | cons uid rest ih =>
    obtain ⟨u, hb⟩ := hbind uid (List.mem_cons_self _ _)
    rw [memberRows_cons_some hb] at hnd hfresh
    rw [List.map_cons, List.nodup_cons] at hnd
    have hdup : t.chat_users.any (fun r => r.chat_id == cid && r.user_id == u) = false := by
      rw [Bool.eq_false_iff]
      intro hany
      rw [List.any_eq_true] at hany
      obtain ⟨r, hr, hru⟩ := hany
      simp only [Bool.and_eq_true, beq_iff_eq] at hru
      exact hfresh r hr hru.1 (by simp [hru.2])
    unfold insertMembers
    rw [insertChatUser_txn, hb]
    simp only [hdup, Bool.false_eq_true, if_false]
    apply ih
    · intro x hx
      exact hbind x (List.mem_cons_of_mem _ hx)
    · exact hnd.2
    · intro r hr hcid
      simp only [List.mem_append, List.mem_singleton] at hr
      rcases hr with hr | rfl
      · intro hmem
        exact hfresh r hr hcid (by simp [hmem])
      · exact hnd.1

theorem dbCreateChat_eq (env : Env) (db : Db) (title : Option String) (g : Bool) (cb : Int)
    (ids : List JsVal) (hf : env.chatInsertFails = false) :
    dbCreateChat env db title g cb ids =
      match insertMembers env db.chatSeq cb ids
        { db := { db with journal := db.journal ++ [Stmt.begin] ++ [Stmt.insertChat title g cb],
                          chatSeq := db.chatSeq + 1 },
          txn := some { db.tables with
            chats := db.tables.chats ++ [newChat env db title g cb] } } with
      | (c3, .error e) => (c3.rollback.db, .error e)
      | (c3, .ok _) => (c3.commit.db, .ok (newChat env db title g cb)) := by
  have hbegin : Client.begin { db := db } =
      { db := { db with journal := db.journal ++ [Stmt.begin] }, txn := some db.tables } := by
    simp [Client.begin, Client.logged]
  unfold dbCreateChat dbCreateChatTry
  rw [hbegin]
  dsimp only
  rw [insertChat_txn _ _ _ _ _ _ hf]
  simp only [List.append_assoc, List.singleton_append, newChat]
  split <;> rename_i heq <;> split at heq <;> simp_all

/-- The call of `dbCreateChat` returns a chat when the storage layer takes the insert
into `chats`, reads every member as a user id, no two as the same one, and
no row of `chat_users` already carries the id of the new chat. -/
theorem dbCreateChat_ok_of (env : Env) (db : Db) (title : Option String) (g : Bool) (cb : Int)
    (ids : List JsVal) (hf : env.chatInsertFails = false)
    (hbind : ∀ uid ∈ ids, ∃ u, env.userIdParam uid = some u)
    (hnd : ((memberRows env db.chatSeq cb ids).map fun r => r.user_id).Nodup)
    (hfresh : ∀ r ∈ db.tables.chat_users, r.chat_id ≠ db.chatSeq) :
    (dbCreateChat env db title g cb ids).2 = .ok (newChat env db title g cb) := by
  have hok := insertMembers_ok_of env db.chatSeq cb ids
    { db with journal := db.journal ++ [Stmt.begin] ++ [Stmt.insertChat title g cb],
              chatSeq := db.chatSeq + 1 }
    { db.tables with chats := db.tables.chats ++ [newChat env db title g cb] }
    hbind hnd (fun r hr hcid => absurd hcid (hfresh r hr))
  rw [dbCreateChat_eq _ _ _ _ _ _ hf]
  split
  · rename_i c3 e heq
    rw [heq] at hok
    simp at hok
  · rfl

theorem memberRows_eq_map {env : Env} {cid cb : Int} {ids : List JsVal}
    (hbind : ∀ uid ∈ ids, ∃ u, env.userIdParam uid = some u) :
    memberRows env cid cb ids = ids.map (memberRow env cid cb) := by
  induction ids with
  | nil => simp [memberRows]
  | cons uid rest ih =>
    obtain ⟨u, hb⟩ := hbind uid (List.mem_cons_self _ _)
    rw [memberRows_cons_some hb, ih (fun x hx => hbind x (List.mem_cons_of_mem _ hx))]
    simp [memberRow, hb]

theorem roleOf_admin_iff (cb : Int) (uid : JsVal) : roleOf cb uid = "admin" ↔ uid = JsVal.num cb := by
  unfold roleOf
  split
  · simp [*]
  · simp only [*, iff_false]
    decide

theorem roleOf_member_iff (cb : Int) (uid : JsVal) :
    roleOf cb uid = "member" ↔ uid ≠ JsVal.num cb := by
  unfold roleOf
  split
  · simp only [*, ne_eq, not_true_eq_false, iff_false]
    decide
  · simp [*]

/-- In a healthy storage layer a list of numbers is read as the user ids it
names. -/
theorem numeric_members_bind {env : Env} (hh : env.Healthy) {ids : List JsVal}
    (hnum : ∀ x ∈ ids, ∃ n, x = JsVal.num n) (cid cb : Int) :
    (∀ uid ∈ ids, ∃ u, env.userIdParam uid = some u) ∧
    ((memberRows env cid cb ids).map fun r => JsVal.num r.user_id) = ids := by
  have hbind : ∀ uid ∈ ids, ∃ u, env.userIdParam uid = some u := by
    intro uid huid
    obtain ⟨n, rfl⟩ := hnum uid huid
    exact ⟨n, hh.2 n⟩
  refine ⟨hbind, ?_⟩
  rw [memberRows_eq_map hbind, List.map_map]
  conv_rhs => rw [← List.map_id ids]
  apply List.map_congr_left
  intro uid huid
  obtain ⟨n, rfl⟩ := hnum uid huid
  simp [memberRow, hh.2 n]

theorem createChat_group (env : Env) (db : Db) (creator : Int) (body : CreateChatBody)
    (hauth : creator ≠ 0) (hg : body.is_group = true) :
    createChat env db (some creator) body =
      match dbCreateChat env db body.title body.is_group creator (memberIdsOf body creator) with
      | (db1, .ok chat) => (db1, .json 201 chat)
      | (db1, .error e) => (db1, .raise e) := by
  simp [createChat, hauth, hg]

/-- The chat the dedup check of `createChat` finds (lines 29-58). -/
theorem createChat_eq (env : Env) (db : Db) (creator : Int) (body : CreateChatBody)
    (hauth : creator ≠ 0) :
    createChat env db (some creator) body =
      match (if !body.is_group && (memberIdsOf body creator).length == 2 then
          findExisting db.tables (memberIdsOf body creator)
            (dbGetChatsForUser db.tables creator)
        else none) with
      | some chat => (db, .json 200 chat)
      | none =>
        match dbCreateChat env db body.title body.is_group creator (memberIdsOf body creator) with
        | (db1, .ok chat) => (db1, .json 201 chat)
        | (db1, .error e) => (db1, .raise e) := by
  simp only [createChat, hauth, if_false]

/-- A response 201 of `createChat` is the chat a successful `dbCreateChat`
returned. -/
theorem createChat_created {env : Env} {db : Db} {creator : Int} {body : CreateChatBody}
    {chat : Chat} (h : (createChat env db (some creator) body).2 = .json 201 chat) :
    creator ≠ 0 ∧
    dbCreateChat env db body.title body.is_group creator (memberIdsOf body creator) =
      ((createChat env db (some creator) body).1, .ok chat) := by
  by_cases hc : creator = 0
  · simp [createChat, hc] at h
  · refine ⟨hc, ?_⟩
    rw [createChat_eq env db creator body hc] at h ⊢
    cases hE : (if !body.is_group && (memberIdsOf body creator).length == 2 then
          findExisting db.tables (memberIdsOf body creator)
            (dbGetChatsForUser db.tables creator)
        else none) with
    | some c =>
      rw [hE] at h
      simp at h
    | none =>
      rw [hE] at h
      simp only at h ⊢
      cases hD : dbCreateChat env db body.title body.is_group creator
          (memberIdsOf body creator) with
      | mk db1 r =>
        rw [hD] at h
        cases r with
        | error e => simp at h
        | ok c =>
          simp only [Outcome.json.injEq, true_and] at h
          rw [h]

theorem exampleDb_wf : exampleDb.WF := by
  decide

theorem memberRow_mem_of_mem_memberRows {env : Env} {cid cb : Int} {ids : List JsVal}
    {r : ChatUser} (hr : r ∈ memberRows env cid cb ids) :
    ∃ uid ∈ ids, env.userIdParam uid = some r.user_id ∧ r.chat_id = cid ∧
      r.role = roleOf cb uid := by
  unfold memberRows at hr
  rw [List.mem_filterMap] at hr
  obtain ⟨uid, huid, hrow⟩ := hr
  cases hb : env.userIdParam uid with
  | none => simp [hb] at hrow
  | some u =>
    simp only [hb, Option.map_some', Option.some.injEq] at hrow
    subst hrow
    exact ⟨uid, huid, hb, rfl, rfl⟩

theorem numericEnv_healthy (now : Nat) : (numericEnv now).Healthy :=
  ⟨rfl, fun _ => rfl⟩

/-! ## Chats and their members -/

theorem createChat_tables (env : Env) (db : Db) (user : Option Int) (body : CreateChatBody) :
    (createChat env db user body).1.tables = db.tables ∨
    ∃ creator chat, user = some creator ∧
      (∃ u, env.userIdParam (JsVal.num creator) = some u) ∧
      (createChat env db user body).1.tables =
        { db.tables with
          chats := db.tables.chats ++ [chat],
          chat_users := db.tables.chat_users ++
            memberRows env chat.id creator (memberIdsOf body creator) } := by
  cases user with
  | none => exact Or.inl rfl
  | some creator =>
    by_cases hc : creator = 0
    · left
      simp [createChat, hc]
    · rw [createChat_eq env db creator body hc]
      split
      · exact Or.inl rfl
      · obtain ⟨herr, hok⟩ := dbCreateChat_spec env db body.title body.is_group creator
          (memberIdsOf body creator)
        split
        · rename_i db1 chat heq
          rw [heq] at hok
          obtain ⟨_, k2, k3, _, _, k6, _⟩ := hok chat rfl
          have hid : chat.id = db.chatSeq := by rw [k2]; rfl
          right
          refine ⟨creator, chat, rfl, k3 _ (creator_mem_memberIdsOf body creator), ?_⟩
          rw [hid]
          exact k6
        · rename_i db1 e heq
          rw [heq] at herr
          exact Or.inl (herr e rfl).1

theorem dbAddUserToChat_tables {env : Env} {db : Db} {cid : Int} {uid : JsVal} {role : String}
    {res : Db × Except DbError (Option ChatUser)}
    (h : dbAddUserToChat env db cid uid role = res) :
    res.1.tables = db.tables ∨
    ∃ row, res.1.tables = { db.tables with chat_users := db.tables.chat_users ++ [row] } := by
  subst h
  unfold dbAddUserToChat
  cases env.userIdParam uid with
  | none => exact Or.inl rfl
  | some u =>
    simp only
    split
    · exact Or.inl rfl
    · exact Or.inr ⟨_, rfl⟩

theorem addUserToChat_tables (env : Env) (db : Db) (user : Option Int) (chatId : Option Int)
    (body : MemberBody) :
    (addUserToChat env db user chatId body).1.tables = db.tables ∨
    ∃ row, (addUserToChat env db user chatId body).1.tables =
      { db.tables with chat_users := db.tables.chat_users ++ [row] } := by
  unfold addUserToChat
  split
  · exact Or.inl rfl
  · split
    · exact Or.inl rfl
    · split
      · exact Or.inl rfl
      · split
        · exact Or.inl rfl
        · split
          · exact Or.inl rfl
          · split <;> rename_i heq <;> exact dbAddUserToChat_tables heq

theorem noMemberless_step (db : Db) (op : ChatOp) (hop : op.isRemove = false)
    (h : NoMemberlessChat db.tables) : NoMemberlessChat (op.run db).tables := by
  cases op with
  | remove env user chatId body => simp [ChatOp.isRemove] at hop
  | create env user body =>
    simp only [ChatOp.run]
    rcases createChat_tables env db user body with heq | ⟨creator, chat, _, ⟨u, hu⟩, heq⟩
    · rw [heq]; exact h
    · rw [heq]
      intro c hc
      simp only [List.mem_append, List.mem_singleton] at hc
      rcases hc with hc | rfl
      · obtain ⟨r, hr, hrc⟩ := h c hc
        exact ⟨r, by simp [hr], hrc⟩
      · refine ⟨memberRow env c.id creator (JsVal.num creator), ?_, rfl⟩
        simp only [List.mem_append]
        right
        unfold memberRows
        rw [List.mem_filterMap]
        exact ⟨JsVal.num creator, creator_mem_memberIdsOf body creator, by simp [hu, memberRow]⟩
  | add env user chatId body =>
    simp only [ChatOp.run]
    rcases addUserToChat_tables env db user chatId body with heq | ⟨row, heq⟩
    · rw [heq]; exact h
    · rw [heq]
      intro c hc
      obtain ⟨r, hr, hrc⟩ := h c hc
      exact ⟨r, by simp [hr], hrc⟩

/-! ## The dedup check of createChat -/

theorem memberIds_eq_flatMap (t : Tables) (cid : Int) :
    ((dbGetChatMembers t cid).map fun m => m.id) =
      (t.chat_users.filter fun cu => cu.chat_id == cid).flatMap fun cu =>
        (t.users.filter fun u => u.id == cu.user_id).map fun u => u.id := by
  unfold dbGetChatMembers
  rw [List.map_flatMap]
  congr 1
  funext cu
  rw [List.map_map]
  rfl

theorem mem_memberIds {t : Tables} {cid n : Int} :
    n ∈ (dbGetChatMembers t cid).map (fun m => m.id) ↔
      (∃ cu ∈ t.chat_users, cu.chat_id = cid ∧ cu.user_id = n) ∧
      (∃ usr ∈ t.users, usr.id = n) := by
  rw [memberIds_eq_flatMap]
  simp only [List.mem_flatMap, List.mem_filter, List.mem_map, beq_iff_eq]
  constructor
  · rintro ⟨cu, ⟨hcu, hcid⟩, usr, ⟨husr, hid⟩, rfl⟩
    exact ⟨⟨cu, hcu, hcid, hid.symm⟩, ⟨usr, husr, rfl⟩⟩
  · rintro ⟨⟨cu, hcu, hcid, hn⟩, ⟨usr, husr, hid⟩⟩
    exact ⟨cu, ⟨hcu, hcid⟩, usr, ⟨husr, by rw [hid, hn]⟩, hid⟩

/-- With membership unique per (chat, user) and user ids unique, the rows
of `dbGetChatMembers` carry pairwise different ids. -/
theorem memberIds_nodup {t : Tables} (hwf : t.Unique) (cid : Int) :
    ((dbGetChatMembers t cid).map fun m => m.id).Nodup := by
  rw [memberIds_eq_flatMap, List.nodup_flatMap]
  constructor
  · intro cu _
    exact (hwf.2).sublist (List.Sublist.map _ (List.filter_sublist _))
  · have hpair : List.Pairwise (fun a b : ChatUser => (a.chat_id, a.user_id) ≠ (b.chat_id, b.user_id))
        t.chat_users := List.pairwise_map.mp hwf.1
    have hsub := hpair.sublist
      (List.filter_sublist (p := fun cu : ChatUser => cu.chat_id == cid) t.chat_users)
    refine List.Pairwise.imp_of_mem ?_ hsub
    intro a b ha hb hne
    simp only [List.mem_filter, beq_iff_eq] at ha hb
    intro x hxa hxb
    simp only [List.mem_map, List.mem_filter, beq_iff_eq] at hxa hxb
    obtain ⟨ua, ⟨_, hua⟩, rfl⟩ := hxa
    obtain ⟨ub, ⟨_, hub⟩, hxb⟩ := hxb
    apply hne
    rw [ha.2, hb.2, ← hua, ← hub, hxb]

theorem memberSetEq_iff {t : Tables} {cid : Int} {ids : List JsVal} :
    memberSetEq t cid ids = true ↔
      ∀ x, x ∈ (dbGetChatMembers t cid).map (fun m => JsVal.num m.id) ↔ x ∈ ids := by
  simp only [memberSetEq, Bool.and_eq_true, List.all_eq_true, decide_eq_true_eq]
  constructor
  · rintro ⟨h1, h2⟩ x
    exact ⟨h1 x, h2 x⟩
  · intro h
    exact ⟨fun x hx => (h x).mp hx, fun x hx => (h x).mpr hx⟩

/-- On a well-formed store and for a duplicate-free list of two ids, the
test of lines 43-51 holds exactly when the chat's member ids are, as a set,
the requested ones. -/
theorem dedupTest_eq_memberSetEq {t : Tables} (hwf : t.Unique) (cid : Int) {ids : List JsVal}
    (hnd : ids.Nodup) (hlen : ids.length = 2) :
    ((dbGetChatMembers t cid).length == 2 && sameMembers (dbGetChatMembers t cid) ids) =
      memberSetEq t cid ids := by
  have hms : ((dbGetChatMembers t cid).map fun m => JsVal.num m.id).Nodup := by
    have h := memberIds_nodup hwf cid
    have h2 := h.map (f := JsVal.num) (fun a b hab => by injection hab)
    rw [List.map_map] at h2
    exact h2
  have hlenms : ((dbGetChatMembers t cid).map fun m => JsVal.num m.id).length =
      (dbGetChatMembers t cid).length := List.length_map _ _
  rw [Bool.eq_iff_iff, memberSetEq_iff]
  simp only [sameMembers, jsSet_eq_self_of_nodup hms, jsSet_eq_self_of_nodup hnd,
    Bool.and_eq_true, beq_iff_eq, List.all_eq_true, decide_eq_true_eq]
  constructor
  · rintro ⟨h2, hl, hsub⟩ x
    have hperm : ((dbGetChatMembers t cid).map fun m => JsVal.num m.id).Perm ids :=
      (List.subperm_of_subset hms hsub).perm_of_length_le (by rw [hl])
    exact hperm.mem_iff
  · intro h
    have hsub1 : ((dbGetChatMembers t cid).map fun m => JsVal.num m.id) ⊆ ids :=
      fun x hx => (h x).mp hx
    have hsub2 : ids ⊆ ((dbGetChatMembers t cid).map fun m => JsVal.num m.id) :=
      fun x hx => (h x).mpr hx
    have hl : ((dbGetChatMembers t cid).map fun m => JsVal.num m.id).length = ids.length :=
      le_antisymm (List.subperm_of_subset hms hsub1).length_le
        (List.subperm_of_subset hnd hsub2).length_le
    refine ⟨?_, hl, hsub1⟩
    rw [← hlenms, hl, hlen]

/-- The loop over the creator's chats returns the first chat that is not a
group and whose member ids are the requested ones. -/
theorem findExisting_eq_find {t : Tables} (hwf : t.Unique) {ids : List JsVal}
    (hnd : ids.Nodup) (hlen : ids.length = 2) (chats : List Chat) :
    findExisting t ids chats =
      chats.find? fun c => !c.is_group && memberSetEq t c.id ids := by
  induction chats with
  | nil => rfl
  | cons c rest ih =>
    unfold findExisting
    rw [List.find?_cons]
    cases hg : c.is_group with
    | true => simpa using ih
    | false =>
      simp only [Bool.false_eq_true, if_false, Bool.not_false, Bool.true_and]
      rw [dedupTest_eq_memberSetEq hwf c.id hnd hlen]
      cases memberSetEq t c.id ids with
      | true => simp
      | false => simpa using ih

/-! ## Create, then repeat -/

theorem mem_dbGetChatsForUser {t : Tables} {userId : Int} {c : Chat} :
    c ∈ dbGetChatsForUser t userId ↔
      c ∈ t.chats ∧ ∃ cu ∈ t.chat_users, cu.chat_id = c.id ∧ cu.user_id = userId := by
  unfold dbGetChatsForUser
  rw [(List.perm_insertionSort _ _).mem_iff]
  simp only [List.mem_flatMap, List.mem_map, List.mem_filter, Bool.and_eq_true, beq_iff_eq]
  constructor
  · rintro ⟨x, hx, cu, ⟨hcu, h1, h2⟩, rfl⟩
    exact ⟨hx, cu, hcu, h1, h2⟩
  · rintro ⟨hc, cu, hcu, h1, h2⟩
    exact ⟨c, hc, cu, ⟨hcu, h1, h2⟩, rfl⟩

/-- A successful `dbCreateChat` keeps the store well-formed. -/
theorem dbCreateChat_wf {env : Env} {db : Db} {title : Option String} {g : Bool} {cb : Int}
    {ids : List JsVal} {chat : Chat} (hwf : db.WF)
    (hok : (dbCreateChat env db title g cb ids).2 = .ok chat) :
    (dbCreateChat env db title g cb ids).1.WF := by
  obtain ⟨_, k2, _, k4, _, k6, k7, _⟩ := (dbCreateChat_spec env db title g cb ids).2 chat hok
  have hid : chat.id = db.chatSeq := by rw [k2]; rfl
  have hrows : ∀ r ∈ memberRows env db.chatSeq cb ids, r.chat_id = db.chatSeq := by
    intro r hr
    obtain ⟨_, _, _, hc, _⟩ := memberRow_mem_of_mem_memberRows hr
    exact hc
  obtain ⟨⟨w1, w2⟩, w3, w4, w5⟩ := hwf
  unfold Db.WF
  rw [k6, k7]
  refine ⟨⟨?_, w2⟩, ?_, ?_, ?_⟩
  · simp only [List.map_append]
    rw [List.nodup_append]
    refine ⟨w1, ?_, ?_⟩
    · apply List.Nodup.of_map Prod.snd
      rw [List.map_map]
      exact k4
    · intro key h1 h2
      rw [List.mem_map] at h1 h2
      obtain ⟨r1, hr1, rfl⟩ := h1
      obtain ⟨r2, hr2, heq⟩ := h2
      have hlt := w5 r1 hr1
      have h3 : r2.chat_id = r1.chat_id := congrArg Prod.fst heq
      rw [← h3, hrows r2 hr2] at hlt
      exact lt_irrefl _ hlt
  · simp only [List.map_append, List.map_cons, List.map_nil]
    rw [List.nodup_append]
    refine ⟨w3, List.nodup_singleton _, ?_⟩
    intro i h1 h2
    rw [List.mem_map] at h1
    obtain ⟨c, hc, rfl⟩ := h1
    rw [List.mem_singleton, hid] at h2
    exact absurd h2 (ne_of_lt (w4 c hc))
  · intro c hc
    simp only [List.mem_append, List.mem_singleton] at hc
    rcases hc with hc | rfl
    · exact lt_trans (w4 c hc) (by omega)
    · rw [hid]; omega
  · intro r hr
    simp only [List.mem_append] at hr
    rcases hr with hr | hr
    · exact lt_trans (w5 r hr) (by omega)
    · rw [hrows r hr]; omega

theorem memberIdsOf_pair (title : Option String) (g : Bool) {u v : Int} (huv : u ≠ v) :
    memberIdsOf ⟨title, g, .array [.num u, .num v]⟩ u = [JsVal.num u, JsVal.num v] := by
  have h : ¬ v = u := fun h => huv h.symm
  simp [memberIdsOf, MembersField.asArray, jsSet, jsSetAdd, h]

theorem memberRows_pair {env : Env} (hh : env.Healthy) (cid : Int) {u v : Int} (huv : u ≠ v) :
    memberRows env cid u [JsVal.num u, JsVal.num v] =
      [⟨cid, u, "admin", env.now⟩, ⟨cid, v, "member", env.now⟩] := by
  have h : ¬ v = u := fun h => huv h.symm
  simp [memberRows, hh.2, roleOf, h]

/-- The rows `dbGetChatMembers` returns for a chat do not change when rows
of another chat are appended to `chat_users`. -/
theorem dbGetChatMembers_append_other (t : Tables) (chats : List Chat) (rows : List ChatUser)
    (cid : Int) (hrows : ∀ r ∈ rows, r.chat_id ≠ cid) :
    dbGetChatMembers { t with chats := chats, chat_users := t.chat_users ++ rows } cid =
      dbGetChatMembers t cid := by
  unfold dbGetChatMembers
  simp only [List.filter_append]
  have : rows.filter (fun cu => cu.chat_id == cid) = [] := by
    rw [List.filter_eq_nil_iff]
    intro r hr
    simp [hrows r hr]
  rw [this, List.append_nil]

/-! ## Join, leave, disconnect -/

theorem mem_socketLeaveAll {rooms : Rooms} {socket : SocketId} {p : String × SocketId} :
    p ∈ socketLeaveAll rooms socket ↔ p ∈ rooms ∧ p.2 ≠ socket := by
  unfold socketLeaveAll
  simp only [List.mem_filter, bne_iff_ne, ne_eq]

theorem socketJoin_of_mem {rooms : Rooms} {socket : SocketId} {room : String}
    (h : (room, socket) ∈ rooms) : socketJoin rooms socket room = rooms := by
  simp [socketJoin, h]

theorem roomMembers_socketJoin_other {rooms : Rooms} {socket : SocketId} {room other : String}
    (h : other ≠ room) :
    roomMembers (socketJoin rooms socket room) other = roomMembers rooms other := by
  unfold socketJoin
  split
  · rfl
  · have hne : ¬ room = other := fun e => h e.symm
    simp [roomMembers, List.filter_append, hne]

theorem roomMembers_socketLeave_other {rooms : Rooms} {socket : SocketId} {room other : String}
    (h : other ≠ room) :
    roomMembers (socketLeave rooms socket room) other = roomMembers rooms other := by
  simp only [roomMembers, socketLeave]
  rw [List.filter_filter]
  congr 1
  apply List.filter_congr
  intro p _
  by_cases hp : p.1 = other
  · have : ¬ p.1 = room := fun e => h (hp ▸ e)
    simp [hp, this]
    exact Or.inl h
  · simp [hp]

/-! ## Messages -/

theorem textByDefault_idem (v : JsVal) : textByDefault (textByDefault v) = textByDefault v := by
  by_cases h : v = .undefined <;> simp [textByDefault, h]

theorem dbAddMessage_ok (env : Env) (db : Db) (chatId senderId : Int)
    (content message_type : JsVal) (h : env.messageInsertFails = false) :
    dbAddMessage env db chatId senderId content message_type =
      ({ db with
          tables := { db.tables with
            chats := db.tables.chats.map fun ch =>
              if ch.id == chatId then { ch with updated_at := env.now } else ch
            messages := db.tables.messages ++
              [{ id := db.messageSeq, chat_id := chatId, sender_id := senderId,
                 content := sqlValue content,
                 message_type := sqlValue (textByDefault message_type),
                 created_at := env.now }] }
          messageSeq := db.messageSeq + 1
          journal := db.journal ++ [Stmt.begin,
            Stmt.insertMessage chatId senderId content (textByDefault message_type),
            Stmt.touchChat chatId, Stmt.commit] },
        .ok { id := db.messageSeq, chat_id := chatId, sender_id := senderId,
              content := sqlValue content,
              message_type := sqlValue (textByDefault message_type),
              created_at := env.now }) := by
  simp [dbAddMessage, dbAddMessageTry, Client.begin, Client.insertMessage, Client.touchChat,
    Client.commit, Client.logged, Client.view, Client.write, h]

theorem dbAddMessage_fails (env : Env) (db : Db) (chatId senderId : Int)
    (content message_type : JsVal) (h : env.messageInsertFails = true) :
    dbAddMessage env db chatId senderId content message_type =
      ({ db with journal := db.journal ++ [Stmt.begin,
            Stmt.insertMessage chatId senderId content (textByDefault message_type),
            Stmt.rollback] },
        .error .messageRejected) := by
  simp [dbAddMessage, dbAddMessageTry, Client.begin, Client.insertMessage, Client.rollback,
    Client.logged, h]

theorem mathMin_le_right (x : JsNumber) (b : ℚ) (hx : x ≠ .nan) :
    (mathMin x (.fin b)).le (.fin b) = true := by
  cases x with
  | nan => exact absurd rfl hx
  | negInf => rfl
  | posInf => simp [mathMin, JsNumber.le]
  | fin a => simp [mathMin, JsNumber.le]

theorem limitParam_le {x : JsNumber} {n : Nat} {b : Nat} (h : limitParam x = some n)
    (hle : x.le (.fin b) = true) : n ≤ b := by
  cases x with
  | nan => simp [limitParam] at h
  | negInf => simp [limitParam] at h
  | posInf => simp [limitParam] at h
  | fin q =>
    simp only [limitParam] at h
    split at h
    · rename_i hq
      simp only [Option.some.injEq] at h
      simp only [JsNumber.le, decide_eq_true_eq] at hle
      have hnum : (q.num : ℚ) = q := Rat.coe_int_num_of_den_eq_one hq.1
      rw [← hnum] at hle
      have hle2 : q.num ≤ (b : Int) := by exact_mod_cast hle
      omega
    · simp at h

theorem getMessagesLimit_le (q : QueryParam) (hq : q ≠ .given .nan) :
    (getMessagesLimit q).le (.fin 200) = true := by
  cases q with
  | absent => simp [getMessagesLimit, JsNumber.le]; norm_num
  | empty => simp [getMessagesLimit, JsNumber.le]; norm_num
  | given x =>
    apply mathMin_le_right
    intro h
    exact hq (by rw [h])

/-! ## The password pattern -/

theorem aheadMatches_eq_any (dot cls : Char → Bool) (cs : List Char)
    (h : ∀ c ∈ cs, dot c = true) : aheadMatches dot cls cs = cs.any cls := by
  induction cs with
  | nil => rfl
  | cons c rest ih =>
    have hrest := ih (fun x hx => h x (List.mem_cons_of_mem _ hx))
    simp [aheadMatches, hrest, h c (List.mem_cons_self _ _)]

theorem isDotChar_of_isPasswordChar {c : Char} (h : isPasswordChar c = true) :
    isDotChar c = true := by
  unfold isDotChar
  rw [Bool.not_eq_true', Bool.eq_false_iff]
  intro hline
  simp only [Bool.or_eq_true, beq_iff_eq] at hline
  rcases hline with ((rfl | rfl) | rfl) | rfl <;> exact absurd h (by decide)

theorem regexTest_start (ns : List RegexNode) (s : String) :
    regexTest (.start :: ns) s = matchNodes ns 0 s.toList := by
  unfold regexTest
  rw [List.range_succ_eq_map, List.any_cons, List.any_map]
  have hrest : ((List.range s.toList.length).any
      ((fun i => matchNodes (.start :: ns) i (s.toList.drop i)) ∘ Nat.succ)) = false := by
    rw [List.any_eq_false]
    intro i _
    simp [matchNodes]
  rw [hrest]
  simp [matchNodes]

theorem classRange_finish (cls : Char → Bool) (lo hi pos : Nat) (cs : List Char) :
    matchNodes [.classRange cls lo hi, .finish] pos cs =
      (decide (lo ≤ cs.length) && decide (cs.length ≤ hi) && cs.all cls) := by
  rw [Bool.eq_iff_iff]
  simp only [matchNodes, List.any_eq_true, List.mem_range, Bool.and_eq_true, decide_eq_true_eq,
    List.isEmpty_eq_true, List.drop_eq_nil_iff, Bool.and_true]
  constructor
  · rintro ⟨k, hk, ⟨⟨⟨hlo, hlen⟩, hall⟩, hdrop⟩⟩
    have hkl : k = cs.length := le_antisymm hlen hdrop
    subst hkl
    rw [List.take_length] at hall
    exact ⟨⟨hlo, by omega⟩, hall⟩
  · rintro ⟨⟨hlo, hhi⟩, hall⟩
    refine ⟨cs.length, by omega, ⟨⟨⟨hlo, le_refl _⟩, ?_⟩, le_refl _⟩⟩
    rw [List.take_length]
    exact hall

/-- The pattern of `createUser` accepts exactly the passwords of the policy. -/
theorem regexTest_passwordRegex (p : String) :
    regexTest passwordRegex p = passwordPolicy p := by
  unfold passwordRegex
  rw [regexTest_start]
  have hsplit : ∀ cs : List Char,
      matchNodes [.ahead isDotChar Char.isLower, .ahead isDotChar Char.isUpper,
        .ahead isDotChar Char.isDigit, .ahead isDotChar isSpecialChar,
        .classRange isPasswordChar 8 16, .finish] 0 cs =
      (aheadMatches isDotChar Char.isLower cs && (aheadMatches isDotChar Char.isUpper cs &&
        (aheadMatches isDotChar Char.isDigit cs && (aheadMatches isDotChar isSpecialChar cs &&
          matchNodes [.classRange isPasswordChar 8 16, .finish] 0 cs)))) := by
    intro cs
    rfl
  rw [hsplit, classRange_finish]
  unfold passwordPolicy
  have hcls : (fun c : Char => c.isUpper || c.isLower || c.isDigit || isSpecialChar c) =
      isPasswordChar := rfl
  rw [hcls]
  cases hall : p.toList.all isPasswordChar with
  | false => simp
  | true =>
    have hdot : ∀ c ∈ p.toList, isDotChar c = true := by
      intro c hc
      exact isDotChar_of_isPasswordChar (List.all_eq_true.mp hall c hc)
    rw [aheadMatches_eq_any _ _ _ hdot, aheadMatches_eq_any _ _ _ hdot,
      aheadMatches_eq_any _ _ _ hdot, aheadMatches_eq_any _ _ _ hdot]
    generalize p.toList.any Char.isLower = a
    generalize p.toList.any Char.isUpper = b
    generalize p.toList.any Char.isDigit = c
    generalize p.toList.any isSpecialChar = d
    generalize decide (8 ≤ p.toList.length) = e
    generalize decide (p.toList.length ≤ 16) = f
    revert a b c d e f
    decide

theorem strFalsy_some {s : String} (h : s ≠ "") : strFalsy (some s) = false := by
  simp [strFalsy, h]

theorem passwordPolicy_ne_empty {p : String} (h : passwordPolicy p = true) : p ≠ "" := by
  rintro rfl
  exact absurd h (by decide)

/-- The handler `createUser` on a body that has its four properties: the
test of the password, then the rest of the handler. -/
theorem createUser_present (env : Env) (db : Db) (name email dob p : String)
    (hn : name ≠ "") (he : email ≠ "") (hd : dob ≠ "") (hp : p ≠ "") :
    createUser env db ⟨some name, some email, some dob, some p⟩ =
      if passwordPolicy p then
        match dbGetUserByEmail db.tables email with
        | some _ => (db, .fail 400 "A user with this email already exists.")
        | none =>
          match dbCreateUser env db name email with
          | (db1, .ok newUser) => (db1, .json 201 newUser)
          | (db1, .error e) => (db1, .raise e)
      else
        (db, .fail 400
          "Password must be 8–16 chars, include uppercase, lowercase, number & special char.") := by
  simp only [createUser, strFalsy_some hn, strFalsy_some he, strFalsy_some hd, strFalsy_some hp,
    Bool.or_false, Option.getD_some, regexTest_passwordRegex]
  cases passwordPolicy p <;> simp

/-! ## The claims -/

/-- C1. On a store whose memberships are unique per (chat, user): a request
by an authenticated creator with `is_group` false and two normalised member
ids, when the creator's chat list holds a non-group chat whose member ids
are as a set the requested ones, is answered 200 with the first such chat of
that list, and the server (tables, sequence and journal, so no statement of
`dbCreateChat`) is as before. -/
theorem C1_existing_chat_is_returned (env : Env) (db : Db) (creator : Int)
    (body : CreateChatBody) (hwf : db.tables.Unique) (hauth : creator ≠ 0)
    (hg : body.is_group = false) (hlen : (memberIdsOf body creator).length = 2)
    (hex : ∃ c ∈ dbGetChatsForUser db.tables creator,
      c.is_group = false ∧ memberSetEq db.tables c.id (memberIdsOf body creator) = true) :
    ∃ chat, (dbGetChatsForUser db.tables creator).find?
        (fun c => !c.is_group && memberSetEq db.tables c.id (memberIdsOf body creator)) =
        some chat ∧
      createChat env db (some creator) body = (db, .json 200 chat) := by
  obtain ⟨c, hc, hcg, hcm⟩ := hex
  cases hfind : (dbGetChatsForUser db.tables creator).find?
      (fun c => !c.is_group && memberSetEq db.tables c.id (memberIdsOf body creator)) with
  | none =>
    rw [List.find?_eq_none] at hfind
    exact absurd (by simp [hcg, hcm]) (hfind c hc)
  | some chat =>
    refine ⟨chat, rfl, ?_⟩
    rw [createChat_eq env db creator body hauth,
      findExisting_eq_find hwf (memberIdsOf_nodup body creator) hlen, hfind]
    simp [hg, hlen]

/-- Witness of C1: user 1 asks for a chat with user 2 and gets chat 2. -/
theorem C1_existing_chat_is_returned_witness :
    ∃ chat, (dbGetChatsForUser exampleDb.tables 1).find?
        (fun c => !c.is_group && memberSetEq exampleDb.tables c.id
          (memberIdsOf { members := .array [.num 2] } 1)) = some chat ∧
      createChat (numericEnv 9) exampleDb (some 1) { members := .array [.num 2] } =
        (exampleDb, .json 200 chat) :=
  C1_existing_chat_is_returned (numericEnv 9) exampleDb 1 { members := .array [.num 2] }
    exampleDb_wf.1 (by decide) rfl (by decide)
    ⟨⟨2, none, false, 1, 1, 1⟩, by decide, rfl, by decide⟩

/-- C2. Users u and v exist and differ, the storage layer is healthy, and
u has no non-group chat whose members are exactly u and v. Then `createChat`
by u with members [u, v] and `is_group` false answers 201 with a chat c of a
new id, stored with exactly the two rows (c, u, admin) and (c, v, member);
the same call again, whatever the storage layer then does, answers with that
same chat c (status 200) and leaves the server as the first call left it. -/
theorem C2_create_then_repeat (env env2 : Env) (db : Db) (u v : Int) (title : Option String)
    (hwf : db.WF) (hh : env.Healthy) (hu0 : u ≠ 0) (huv : u ≠ v)
    (hu : ∃ usr ∈ db.tables.users, usr.id = u) (hv : ∃ usr ∈ db.tables.users, usr.id = v)
    (hnone : ∀ c ∈ dbGetChatsForUser db.tables u, c.is_group = false →
      memberSetEq db.tables c.id [JsVal.num u, JsVal.num v] = false) :
    ∃ c db1,
      createChat env db (some u) ⟨title, false, .array [.num u, .num v]⟩ = (db1, .json 201 c) ∧
      (∀ x ∈ db.tables.chats, x.id ≠ c.id) ∧
      db1.tables.chats = db.tables.chats ++ [c] ∧
      db1.tables.chat_users = db.tables.chat_users ++
        [⟨c.id, u, "admin", env.now⟩, ⟨c.id, v, "member", env.now⟩] ∧
      (db1.tables.chat_users.filter fun r => r.chat_id == c.id) =
        [⟨c.id, u, "admin", env.now⟩, ⟨c.id, v, "member", env.now⟩] ∧
      createChat env2 db1 (some u) ⟨title, false, .array [.num u, .num v]⟩ =
        (db1, .json 200 c) := by
  have hids := memberIdsOf_pair title false huv
  have hnd : [JsVal.num u, JsVal.num v].Nodup := by
    rw [← hids]; exact memberIdsOf_nodup _ _
  have hrowsEq := memberRows_pair hh db.chatSeq huv
  have hfresh : ∀ r ∈ db.tables.chat_users, r.chat_id ≠ db.chatSeq :=
    fun r hr => ne_of_lt (hwf.2.2.2 r hr)
  -- the first call
  have hok : (dbCreateChat env db title false u [JsVal.num u, JsVal.num v]).2 =
      .ok (newChat env db title false u) := by
    apply dbCreateChat_ok_of env db title false u _ hh.1
    · intro uid huid
      simp only [List.mem_cons, List.mem_singleton, List.not_mem_nil, or_false] at huid
      rcases huid with rfl | rfl
      · exact ⟨u, hh.2 u⟩
      · exact ⟨v, hh.2 v⟩
    · rw [hrowsEq]
      simp [huv]
    · exact hfresh
  obtain ⟨_, _, _, _, _, k6, _⟩ :=
    (dbCreateChat_spec env db title false u [JsVal.num u, JsVal.num v]).2 _ hok
  have hwf1 := dbCreateChat_wf hwf hok
  rw [hrowsEq] at k6
  generalize hdb1 : (dbCreateChat env db title false u [JsVal.num u, JsVal.num v]).1 = db1
    at k6 hwf1
  have hrun : dbCreateChat env db title false u [JsVal.num u, JsVal.num v] =
      (db1, .ok (newChat env db title false u)) := Prod.ext hdb1 hok
  have hcid : (newChat env db title false u).id = db.chatSeq := rfl
  have hfind0 : (dbGetChatsForUser db.tables u).find?
      (fun c => !c.is_group && memberSetEq db.tables c.id [JsVal.num u, JsVal.num v]) = none := by
    rw [List.find?_eq_none]
    intro c hc
    cases hg : c.is_group with
    | true => simp
    | false => simp [hnone c hc hg]
  have hfirst : createChat env db (some u) ⟨title, false, .array [.num u, .num v]⟩ =
      (db1, .json 201 (newChat env db title false u)) := by
    rw [createChat_eq env db u _ hu0, hids, findExisting_eq_find hwf.1 hnd rfl, hfind0]
    simp [hrun]
  have hchats : db1.tables.chats = db.tables.chats ++ [newChat env db title false u] := by
    rw [k6]
  have hcu : db1.tables.chat_users = db.tables.chat_users ++
      [⟨db.chatSeq, u, "admin", env.now⟩, ⟨db.chatSeq, v, "member", env.now⟩] := by
    rw [k6]
  have husers : db1.tables.users = db.tables.users := by
    rw [k6]
  -- the rows of the new chat
  have hfilter : (db1.tables.chat_users.filter fun r => r.chat_id == db.chatSeq) =
      [⟨db.chatSeq, u, "admin", env.now⟩, ⟨db.chatSeq, v, "member", env.now⟩] := by
    rw [hcu, List.filter_append, List.filter_eq_nil_iff.mpr]
    · simp
    · intro r hr
      simp [hfresh r hr]
  -- the second call
  have hmem : newChat env db title false u ∈ dbGetChatsForUser db1.tables u := by
    rw [mem_dbGetChatsForUser, hchats, hcu]
    exact ⟨by simp, ⟨db.chatSeq, u, "admin", env.now⟩, by simp, rfl, rfl⟩
  have hP : memberSetEq db1.tables (newChat env db title false u).id
      [JsVal.num u, JsVal.num v] = true := by
    rw [memberSetEq_iff]
    intro x
    have hx : x ∈ (dbGetChatMembers db1.tables db.chatSeq).map (fun m => JsVal.num m.id) ↔
        ∃ n, n ∈ (dbGetChatMembers db1.tables db.chatSeq).map (fun m => m.id) ∧
          x = JsVal.num n := by
      simp only [List.mem_map]
      constructor
      · rintro ⟨m, hm, rfl⟩
        exact ⟨m.id, ⟨m, hm, rfl⟩, rfl⟩
      · rintro ⟨n, ⟨m, hm, rfl⟩, rfl⟩
        exact ⟨m, hm, rfl⟩
    rw [hcid, hx]
    simp only [mem_memberIds, husers, hcu, List.mem_append, List.mem_cons, List.mem_singleton,
      List.not_mem_nil, or_false]
    constructor
    · rintro ⟨n, ⟨⟨cu, hcu1, hcid1, hn⟩, _⟩, rfl⟩
      rcases hcu1 with hold | rfl | rfl
      · exact absurd hcid1 (hfresh cu hold)
      · left; rw [← hn]
      · right; rw [← hn]
    · rintro (rfl | rfl)
      · exact ⟨u, ⟨⟨⟨db.chatSeq, u, "admin", env.now⟩, Or.inr (Or.inl rfl), rfl, rfl⟩, hu⟩, rfl⟩
      · exact ⟨v, ⟨⟨⟨db.chatSeq, v, "member", env.now⟩, Or.inr (Or.inr rfl), rfl, rfl⟩, hv⟩, rfl⟩
  have huniq : ∀ x ∈ dbGetChatsForUser db1.tables u,
      (!x.is_group && memberSetEq db1.tables x.id [JsVal.num u, JsVal.num v]) = true →
      x = newChat env db title false u := by
    intro x hx hPx
    rw [mem_dbGetChatsForUser, hchats, hcu] at hx
    obtain ⟨hxc, cu, hcu1, hcu2, hcu3⟩ := hx
    simp only [List.mem_append, List.mem_singleton] at hxc
    rcases hxc with hold | rfl
    · exfalso
      have hne : x.id ≠ db.chatSeq := ne_of_lt (hwf.2.2.1 x hold)
      have hcuold : cu ∈ db.tables.chat_users := by
        simp only [List.mem_append, List.mem_cons, List.mem_singleton, List.not_mem_nil,
          or_false] at hcu1
        rcases hcu1 with h | rfl | rfl
        · exact h
        · exact absurd hcu2.symm hne
        · exact absurd hcu2.symm hne
      have hxin : x ∈ dbGetChatsForUser db.tables u := by
        rw [mem_dbGetChatsForUser]
        exact ⟨hold, cu, hcuold, hcu2, hcu3⟩
      simp only [Bool.and_eq_true, Bool.not_eq_true'] at hPx
      have hsame : dbGetChatMembers db1.tables x.id = dbGetChatMembers db.tables x.id := by
        rw [k6]
        apply dbGetChatMembers_append_other
        intro r hr
        simp only [List.mem_cons, List.mem_singleton, List.not_mem_nil, or_false] at hr
        rcases hr with rfl | rfl <;> exact fun h => hne h.symm
      have hm : memberSetEq db1.tables x.id [JsVal.num u, JsVal.num v] =
          memberSetEq db.tables x.id [JsVal.num u, JsVal.num v] := by
        unfold memberSetEq
        rw [hsame]
      rw [hm, hnone x hxin hPx.1] at hPx
      exact absurd hPx.2 (by decide)
    · rfl
  have hfind1 : (dbGetChatsForUser db1.tables u).find?
      (fun c => !c.is_group && memberSetEq db1.tables c.id [JsVal.num u, JsVal.num v]) =
      some (newChat env db title false u) := by
    cases hf : (dbGetChatsForUser db1.tables u).find?
        (fun c => !c.is_group && memberSetEq db1.tables c.id [JsVal.num u, JsVal.num v]) with
    | none =>
      rw [List.find?_eq_none] at hf
      have hng : (newChat env db title false u).is_group = false := rfl
      exact absurd (by simp [hP, hng]) (hf _ hmem)
    | some x =>
      have h1 := List.find?_some hf
      have h2 := List.mem_of_find?_eq_some hf
      exact congrArg some (huniq x h2 h1)
  have hsecond : createChat env2 db1 (some u) ⟨title, false, .array [.num u, .num v]⟩ =
      (db1, .json 200 (newChat env db title false u)) := by
    rw [createChat_eq env2 db1 u _ hu0, hids, findExisting_eq_find hwf1.1 hnd rfl, hfind1]
    simp
  refine ⟨newChat env db title false u, db1, hfirst, ?_, hchats, hcu, hfilter, hsecond⟩
  intro x hx
  exact ne_of_lt (hwf.2.2.1 x hx)

/-- Witness of C2: users 1 and 3 of `exampleDb` have no chat of their own;
user 3 asks for one twice and gets chat 3 both times. -/
theorem C2_create_then_repeat_witness :
    ∃ c db1,
      createChat (numericEnv 9) exampleDb (some 3) ⟨none, false, .array [.num 3, .num 1]⟩ =
        (db1, .json 201 c) ∧
      (∀ x ∈ exampleDb.tables.chats, x.id ≠ c.id) ∧
      db1.tables.chats = exampleDb.tables.chats ++ [c] ∧
      db1.tables.chat_users = exampleDb.tables.chat_users ++
        [⟨c.id, 3, "admin", (numericEnv 9).now⟩, ⟨c.id, 1, "member", (numericEnv 9).now⟩] ∧
      (db1.tables.chat_users.filter fun r => r.chat_id == c.id) =
        [⟨c.id, 3, "admin", (numericEnv 9).now⟩, ⟨c.id, 1, "member", (numericEnv 9).now⟩] ∧
      createChat (numericEnv 12) db1 (some 3) ⟨none, false, .array [.num 3, .num 1]⟩ =
        (db1, .json 200 c) :=
  C2_create_then_repeat (numericEnv 9) (numericEnv 12) exampleDb 3 1 none exampleDb_wf
    (numericEnv_healthy 9) (by decide) (by decide) ⟨⟨3, "cy", "cy@x"⟩, by decide, rfl⟩
    ⟨⟨1, "ann", "ann@x"⟩, by decide, rfl⟩ (by decide)

/-- C3. `dbCreateChat` is all-or-nothing. When the insert into `chats` is
refused, or a member is refused, or two members are read as the same user,
the call fails. When it fails, the journal shows BEGIN, the inserts, then
ROLLBACK and no COMMIT, the error thrown is the one of the insert that
failed, and the committed tables are those before the call. When it returns
a chat, every insert went through, the journal ends in COMMIT, and the tables
are those before the call plus the chat row and one row for each member. -/
theorem C3_creation_is_atomic (env : Env) (db : Db) (title : Option String) (is_group : Bool)
    (created_by : Int) (memberIds : List JsVal) :
    ((env.chatInsertFails = true ∨ (∃ uid ∈ memberIds, env.userIdParam uid = none) ∨
        ¬ ((memberRows env db.chatSeq created_by memberIds).map fun r => r.user_id).Nodup) →
      ∃ e, (dbCreateChat env db title is_group created_by memberIds).2 = .error e) ∧
    (∀ e, (dbCreateChat env db title is_group created_by memberIds).2 = .error e →
      (dbCreateChat env db title is_group created_by memberIds).1.tables = db.tables ∧
      (∃ js, (dbCreateChat env db title is_group created_by memberIds).1.journal =
          db.journal ++ [Stmt.begin] ++ js ++ [Stmt.rollback] ∧
        Stmt.commit ∉ js ∧ Stmt.rollback ∉ js) ∧
      ((env.chatInsertFails = true ∧ e = .chatRejected) ∨
        (env.chatInsertFails = false ∧ ∃ uid ∈ memberIds,
          (env.userIdParam uid = none ∧ e = .paramRejected uid) ∨
          (∃ u, env.userIdParam uid = some u ∧ e = .duplicateKey db.chatSeq u)))) ∧
    (∀ chat, (dbCreateChat env db title is_group created_by memberIds).2 = .ok chat →
      env.chatInsertFails = false ∧
      chat = newChat env db title is_group created_by ∧
      (∀ uid ∈ memberIds, ∃ u, env.userIdParam uid = some u) ∧
      ((memberRows env db.chatSeq created_by memberIds).map fun r => r.user_id).Nodup ∧
      (dbCreateChat env db title is_group created_by memberIds).1.tables =
        { db.tables with
          chats := db.tables.chats ++ [chat],
          chat_users := db.tables.chat_users ++ memberRows env db.chatSeq created_by memberIds } ∧
      (∃ js, (dbCreateChat env db title is_group created_by memberIds).1.journal =
          db.journal ++ [Stmt.begin] ++ js ++ [Stmt.commit] ∧
        Stmt.commit ∉ js ∧ Stmt.rollback ∉ js)) := by
  obtain ⟨herr, hok⟩ := dbCreateChat_spec env db title is_group created_by memberIds
  refine ⟨?_, herr, ?_⟩
  · intro hfail
    cases hres : (dbCreateChat env db title is_group created_by memberIds).2 with
    | error e => exact ⟨e, rfl⟩
    | ok chat =>
      obtain ⟨k1, _, k3, k4, _⟩ := hok chat hres
      rcases hfail with h | ⟨uid, huid, hnone⟩ | h
      · rw [k1] at h
        exact absurd h (by decide)
      · obtain ⟨u, hu⟩ := k3 uid huid
        rw [hnone] at hu
        exact absurd hu (by simp)
      · exact absurd k4 h
  · intro chat hc
    obtain ⟨k1, k2, k3, k4, _, k6, _, k8⟩ := hok chat hc
    exact ⟨k1, k2, k3, k4, k6, k8⟩

/-- Witness of C3: the second member is not a user id, the insert for it is
refused, and the tables, which held one chat, are as before. -/
theorem C3_creation_is_atomic_witness :
    (dbCreateChat (numericEnv 5)
        { tables := { chats := [⟨1, none, false, 1, 0, 0⟩], chat_users := [⟨1, 1, "admin", 0⟩] },
          chatSeq := 2 }
        (some "t") true 1 [.num 1, .str "x"]).1.tables =
      { chats := [⟨1, none, false, 1, 0, 0⟩], chat_users := [⟨1, 1, "admin", 0⟩] } :=
  ((C3_creation_is_atomic (numericEnv 5)
      { tables := { chats := [⟨1, none, false, 1, 0, 0⟩], chat_users := [⟨1, 1, "admin", 0⟩] },
        chatSeq := 2 }
      (some "t") true 1 [.num 1, .str "x"]).2.1 (.paramRejected (.str "x")) rfl).1

/-- C4 (amended). A `createChat` request with `is_group` true never looks
for an existing chat: the stored state and the response are those of
`dbCreateChat`. When that call returns a chat the response is 201 with this
chat, whose id no stored chat had, and the chat is appended to the stored
ones; it does return one whenever the storage layer is healthy and the
members are numbers. When an insert is refused the error is passed on and
the tables are as before. -/
theorem C4_group_request_always_creates (env : Env) (db : Db) (creator : Int)
    (body : CreateChatBody) (hwf : db.WF) (hauth : creator ≠ 0) (hg : body.is_group = true) :
    (createChat env db (some creator) body).1 =
      (dbCreateChat env db body.title true creator (memberIdsOf body creator)).1 ∧
    (∀ chat, (dbCreateChat env db body.title true creator (memberIdsOf body creator)).2 = .ok chat →
      (createChat env db (some creator) body).2 = .json 201 chat ∧
      (∀ c ∈ db.tables.chats, c.id ≠ chat.id) ∧
      (createChat env db (some creator) body).1.tables.chats = db.tables.chats ++ [chat]) ∧
    (∀ e, (dbCreateChat env db body.title true creator (memberIdsOf body creator)).2 = .error e →
      (createChat env db (some creator) body).2 = .raise e ∧
      (createChat env db (some creator) body).1.tables = db.tables) ∧
    (env.Healthy → (∀ x ∈ memberIdsOf body creator, ∃ n, x = JsVal.num n) →
      ∃ chat, (createChat env db (some creator) body).2 = .json 201 chat) := by
  obtain ⟨herr, hok⟩ := dbCreateChat_spec env db body.title true creator (memberIdsOf body creator)
  have hrun := createChat_group env db creator body hauth hg
  rw [hg] at hrun
  have hdb : (createChat env db (some creator) body).1 =
      (dbCreateChat env db body.title true creator (memberIdsOf body creator)).1 := by
    rw [hrun]
    split <;> rename_i heq <;> rw [heq]
  have hout_ok : ∀ chat,
      (dbCreateChat env db body.title true creator (memberIdsOf body creator)).2 = .ok chat →
      (createChat env db (some creator) body).2 = .json 201 chat := by
    intro chat hc
    rw [hrun]
    split <;> rename_i heq <;> rw [heq] at hc <;> simp_all
  refine ⟨hdb, ?_, ?_, ?_⟩
  · intro chat hc
    obtain ⟨_, k2, _, _, _, k6, _⟩ := hok chat hc
    refine ⟨hout_ok chat hc, ?_, ?_⟩
    · intro c hcmem heq
      have hlt := hwf.2.2.1 c hcmem
      rw [heq, k2] at hlt
      simp [newChat] at hlt
    · rw [hdb, k6]
  · intro e he
    obtain ⟨k1, _⟩ := herr e he
    refine ⟨?_, by rw [hdb, k1]⟩
    rw [hrun]
    split <;> rename_i heq <;> rw [heq] at he <;> simp_all
  · intro hh hnum
    obtain ⟨hbind, hids⟩ := numeric_members_bind hh hnum db.chatSeq creator
    have hnd : ((memberRows env db.chatSeq creator (memberIdsOf body creator)).map
        fun r => r.user_id).Nodup := by
      apply List.Nodup.of_map JsVal.num
      rw [List.map_map]
      have : (JsVal.num ∘ fun r : ChatUser => r.user_id) = fun r => JsVal.num r.user_id := rfl
      rw [this, hids]
      exact memberIdsOf_nodup body creator
    have hfresh : ∀ r ∈ db.tables.chat_users, r.chat_id ≠ db.chatSeq := by
      intro r hr
      exact ne_of_lt (hwf.2.2.2 r hr)
    exact ⟨_, hout_ok _ (dbCreateChat_ok_of env db body.title true creator _ hh.1 hbind hnd hfresh)⟩

/-- Witness of C4: users 1, 2 and 3 already share group chat 1; the same
group request gives 201 with a chat of the new id 3. -/
theorem C4_group_request_always_creates_witness :
    (createChat (numericEnv 9) exampleDb (some 1)
        { is_group := true, members := .array [.num 2, .num 3] }).2 =
      .json 201 ⟨3, none, true, 1, 9, 9⟩ :=
  ((C4_group_request_always_creates (numericEnv 9) exampleDb 1
      { is_group := true, members := .array [.num 2, .num 3] } exampleDb_wf (by decide) rfl).2.1
    ⟨3, none, true, 1, 9, 9⟩ rfl).1

/-- Counterexample to C4 as stated: a group request whose member list holds
a value that is not a user id. The insert for it is refused and the response
is the error, not 201. -/
theorem C4_counterexample :
    (createChat (numericEnv 0) {} (some 1)
        { is_group := true, members := .array [.str "x"] }).2 =
      .raise (.paramRejected (.str "x")) ∧
    ¬ ∃ chat, (createChat (numericEnv 0) {} (some 1)
        { is_group := true, members := .array [.str "x"] }).2 = .json 201 chat := by
  have h : (createChat (numericEnv 0) {} (some 1)
      { is_group := true, members := .array [.str "x"] }).2 =
      .raise (.paramRejected (.str "x")) := by decide
  refine ⟨h, ?_⟩
  rintro ⟨chat, hc⟩
  rw [h] at hc
  cases hc

/-- C5. A successful `dbCreateChat` appends to `chat_users` one row for each
element of `memberIds`, in order, each with the id of the new chat and the
user id the element is read as; the role is admin exactly when the element
is (`===`) `created_by` and member otherwise, which for numeric ids in a
healthy storage layer is: exactly when the row's user id is `created_by`.
A chat created through `createChat` has as its rows exactly these, the role
is admin exactly on the creator's row, and there is exactly one admin row. -/
theorem C5_one_row_per_member_creator_admin (env : Env) (db : Db) :
    (∀ title is_group created_by memberIds chat, memberIds.Nodup →
      (dbCreateChat env db title is_group created_by memberIds).2 = .ok chat →
      (dbCreateChat env db title is_group created_by memberIds).1.tables.chat_users =
        db.tables.chat_users ++ memberRows env chat.id created_by memberIds ∧
      List.Forall₂ (fun uid r => env.userIdParam uid = some r.user_id ∧ r.chat_id = chat.id ∧
          (r.role = "admin" ↔ uid = JsVal.num created_by) ∧
          (r.role = "member" ↔ uid ≠ JsVal.num created_by))
        memberIds (memberRows env chat.id created_by memberIds) ∧
      (env.Healthy → (∀ x ∈ memberIds, ∃ n, x = JsVal.num n) →
        ∀ r ∈ memberRows env chat.id created_by memberIds,
          (r.role = "admin" ↔ r.user_id = created_by) ∧
          (r.role = "member" ↔ r.user_id ≠ created_by))) ∧
    (∀ creator body chat, env.Healthy → db.WF →
      (createChat env db (some creator) body).2 = .json 201 chat →
      ((createChat env db (some creator) body).1.tables.chat_users.filter
          fun r => r.chat_id == chat.id) =
        memberRows env chat.id creator (memberIdsOf body creator) ∧
      (memberRows env chat.id creator (memberIdsOf body creator)).length =
        (memberIdsOf body creator).length ∧
      (∀ r ∈ memberRows env chat.id creator (memberIdsOf body creator),
        (r.role = "admin" ↔ r.user_id = creator) ∧ (r.role = "member" ↔ r.user_id ≠ creator)) ∧
      (((createChat env db (some creator) body).1.tables.chat_users.filter
          fun r => r.chat_id == chat.id && r.role == "admin").map fun r => r.user_id) =
        [creator]) := by
  constructor
  · intro title g cb ids chat _ hok
    obtain ⟨_, k2, k3, _, _, k6, _⟩ := (dbCreateChat_spec env db title g cb ids).2 chat hok
    have hid : chat.id = db.chatSeq := by rw [k2]; rfl
    rw [hid]
    refine ⟨by rw [k6], ?_, ?_⟩
    · rw [memberRows_eq_map k3, List.forall₂_map_right_iff, List.forall₂_same]
      intro uid huid
      obtain ⟨u, hu⟩ := k3 uid huid
      exact ⟨by simp [memberRow, hu], rfl, roleOf_admin_iff cb uid, roleOf_member_iff cb uid⟩
    · intro hh hnum r hr
      obtain ⟨uid, huid, hb, _, hrole⟩ := memberRow_mem_of_mem_memberRows hr
      obtain ⟨n, rfl⟩ := hnum uid huid
      rw [hh.2 n, Option.some.injEq] at hb
      rw [hrole, roleOf_admin_iff, roleOf_member_iff, ← hb]
      simp
  · intro creator body chat hh hwf h201
    obtain ⟨_, hrun⟩ := createChat_created h201
    have hok : (dbCreateChat env db body.title body.is_group creator
        (memberIdsOf body creator)).2 = .ok chat := by rw [hrun]
    obtain ⟨_, k2, k3, k4, _, k6, _⟩ :=
      (dbCreateChat_spec env db body.title body.is_group creator (memberIdsOf body creator)).2
        chat hok
    have hid : chat.id = db.chatSeq := by rw [k2]; rfl
    have htab : (createChat env db (some creator) body).1.tables.chat_users =
        db.tables.chat_users ++ memberRows env chat.id creator (memberIdsOf body creator) := by
      have := congrArg (fun x => x.1.tables.chat_users) hrun
      simp only at this
      rw [← this, k6, hid]
    have hold : ∀ r ∈ db.tables.chat_users, (r.chat_id == chat.id) = false := by
      intro r hr
      rw [hid, beq_eq_false_iff_ne]
      exact ne_of_lt (hwf.2.2.2 r hr)
    have hnew : ∀ r ∈ memberRows env chat.id creator (memberIdsOf body creator),
        (r.chat_id == chat.id) = true := by
      intro r hr
      obtain ⟨_, _, _, hc, _⟩ := memberRow_mem_of_mem_memberRows hr
      rw [beq_iff_eq]
      exact hc
    have hcreator : (memberRow env chat.id creator (JsVal.num creator)).user_id = creator := by
      simp [memberRow, hh.2 creator]
    have k4b : ((memberIdsOf body creator).map
        fun uid => (memberRow env chat.id creator uid).user_id).Nodup := by
      have h := k4
      rw [← hid, memberRows_eq_map k3, List.map_map] at h
      exact h
    have hinj := List.inj_on_of_nodup_map k4b
    have hroles : ∀ uid ∈ memberIdsOf body creator,
        ((memberRow env chat.id creator uid).user_id = creator ↔ uid = JsVal.num creator) := by
      intro uid huid
      constructor
      · intro h
        exact hinj huid (creator_mem_memberIdsOf body creator) (by rw [h, hcreator])
      · rintro rfl
        exact hcreator
    refine ⟨?_, ?_, ?_, ?_⟩
    · rw [htab, List.filter_append, List.filter_eq_nil_iff.mpr, List.filter_eq_self.mpr hnew]
      · simp
      · intro r hr
        simp [hold r hr]
    · rw [memberRows_eq_map k3, List.length_map]
    · intro r hr
      rw [memberRows_eq_map k3, List.mem_map] at hr
      obtain ⟨uid, huid, rfl⟩ := hr
      rw [hroles uid huid]
      refine ⟨roleOf_admin_iff creator uid, ?_⟩
      rw [ne_eq, hroles uid huid]
      exact roleOf_member_iff creator uid
    · rw [htab, List.filter_append, List.filter_eq_nil_iff.mpr, List.nil_append,
        memberRows_eq_map k3, List.filter_map, List.map_map]
      · have hfilter : (memberIdsOf body creator).filter
            ((fun r : ChatUser => r.chat_id == chat.id && r.role == "admin") ∘
              memberRow env chat.id creator) =
            (memberIdsOf body creator).filter (fun uid => uid == JsVal.num creator) := by
          apply List.filter_congr
          intro uid _
          simp only [Function.comp, memberRow, beq_self_eq_true, Bool.true_and]
          by_cases hu : uid = JsVal.num creator
          · simp [hu, roleOf]
          · have : ¬ roleOf creator uid = "admin" := fun h => hu ((roleOf_admin_iff _ _).mp h)
            simp [hu, this]
        rw [hfilter, List.filter_beq,
          List.count_eq_one_of_mem (memberIdsOf_nodup body creator)
            (creator_mem_memberIdsOf body creator)]
        simp [hcreator]
      · intro r hr
        simp [hold r hr]

/-- Witness of C5: user 3 opens a chat with user 1; the new chat 3 has one
admin row, that of user 3. -/
theorem C5_one_row_per_member_creator_admin_witness :
    (((createChat (numericEnv 9) exampleDb (some 3)
        { members := .array [.num 1] }).1.tables.chat_users.filter
          fun r => r.chat_id == 3 && r.role == "admin").map fun r => r.user_id) = [3] :=
  ((C5_one_row_per_member_creator_admin (numericEnv 9) exampleDb).2 3
    { members := .array [.num 1] } ⟨3, none, false, 3, 9, 9⟩ (numericEnv_healthy 9) exampleDb_wf
    rfl).2.2.2

/-- C6. The list `memberIds` of `createChat` has no duplicate, contains the
creator id, and its elements are those of the supplied `members` array and
the creator id, nothing else; when `members` is not an array the list is
exactly `[creatorId]`. -/
theorem C6_memberIds_normalised (body : CreateChatBody) (creatorId : Int) :
    (memberIdsOf body creatorId).Nodup ∧
    JsVal.num creatorId ∈ memberIdsOf body creatorId ∧
    (∀ xs, body.members = .array xs →
      ∀ x, x ∈ memberIdsOf body creatorId ↔ x ∈ xs ∨ x = JsVal.num creatorId) ∧
    (body.members = .absent → memberIdsOf body creatorId = [JsVal.num creatorId]) ∧
    (∀ v, body.members = .other v → memberIdsOf body creatorId = [JsVal.num creatorId]) := by
  refine ⟨memberIdsOf_nodup body creatorId, creator_mem_memberIdsOf body creatorId, ?_, ?_, ?_⟩
  · intro xs hxs x
    simp [memberIdsOf, hxs, MembersField.asArray, mem_jsSet]
  · intro h
    simp [memberIdsOf, h, MembersField.asArray, jsSet, jsSetAdd]
  · intro v h
    simp [memberIdsOf, h, MembersField.asArray]

/-- C7 (amended). From a store without chats and memberships, whatever
requests to `createChat` and `addUserToChat` are handled, every stored chat
has at least one row of `chat_users`. -/
theorem C7_no_memberless_chat_without_removal (db : Db) (ops : List ChatOp)
    (hchats : db.tables.chats = []) (_hrows : db.tables.chat_users = [])
    (hops : ∀ op ∈ ops, op.isRemove = false) :
    NoMemberlessChat (runOps db ops).tables := by
  have hinit : NoMemberlessChat db.tables := by
    intro c hc
    rw [hchats] at hc
    cases hc
  clear hchats _hrows
  induction ops generalizing db with
  | nil => exact hinit
  | cons op rest ih =>
    simp only [runOps, List.foldl_cons]
    exact ih (op.run db) (fun o ho => hops o (List.mem_cons_of_mem _ ho))
      (noMemberless_step db op (hops op (List.mem_cons_self _ _)) hinit)

/-- Witness of C7 (amended): user 1 creates a chat and adds user 2. -/
theorem C7_no_memberless_chat_without_removal_witness :
    NoMemberlessChat (runOps { tables := { users := [⟨1, "ann", "ann@x"⟩, ⟨2, "bob", "bob@x"⟩] } }
      [.create (numericEnv 1) (some 1) {},
       .add (numericEnv 2) (some 1) (some 1) { userId := .num 2 }]).tables :=
  C7_no_memberless_chat_without_removal _ _ rfl rfl (by
    intro op hop
    simp only [List.mem_cons, List.mem_singleton, List.not_mem_nil, or_false] at hop
    rcases hop with rfl | rfl <;> rfl)

/-- Counterexample to C7 as stated: user 1 creates a chat without other
members and then removes themself; chat 1 is still stored and has no row of
`chat_users`. -/
theorem C7_counterexample :
    (runOps { tables := { users := [⟨1, "ann", "ann@x"⟩] } }
      [.create (numericEnv 1) (some 1) {},
       .remove (numericEnv 2) (some 1) (some 1) { userId := .num 1 }]).tables =
      { users := [⟨1, "ann", "ann@x"⟩], chats := [⟨1, none, false, 1, 1, 1⟩], chat_users := [] } ∧
    ¬ NoMemberlessChat (runOps { tables := { users := [⟨1, "ann", "ann@x"⟩] } }
      [.create (numericEnv 1) (some 1) {},
       .remove (numericEnv 2) (some 1) (some 1) { userId := .num 1 }]).tables := by
  have h : (runOps { tables := { users := [⟨1, "ann", "ann@x"⟩] } }
      [.create (numericEnv 1) (some 1) {},
       .remove (numericEnv 2) (some 1) (some 1) { userId := .num 1 }]).tables =
      { users := [⟨1, "ann", "ann@x"⟩], chats := [⟨1, none, false, 1, 1, 1⟩],
        chat_users := [] } := by decide
  refine ⟨h, ?_⟩
  rw [h]
  intro hn
  obtain ⟨r, hr, _⟩ := hn ⟨1, none, false, 1, 1, 1⟩ (by simp)
  cases hr

/-- C8. A `send_message` carrying a message, sent by a socket of the room
of `chatId`: the listener does not throw, `receive_message` goes to exactly
the sockets of that room, the sender among them, each delivery carries the
message as it came in, and the room table is as before. -/
theorem C8_send_message_reaches_the_room (now : String) (rooms : Rooms) (A : SocketId)
    (d : EventData) (hmsg : d.message.nullish = false)
    (hA : A ∈ roomMembers rooms (roomName d.chatId)) :
    (∃ sent, onSendMessage now rooms A (some d) = .done rooms sent) ∧
    (onSendMessage now rooms A (some d)).rooms = rooms ∧
    ((onSendMessage now rooms A (some d)).sent.map fun x => x.recipient) =
      roomMembers rooms (roomName d.chatId) ∧
    (∀ s, (∃ x ∈ (onSendMessage now rooms A (some d)).sent, x.recipient = s) ↔
      s ∈ roomMembers rooms (roomName d.chatId)) ∧
    (∃ x ∈ (onSendMessage now rooms A (some d)).sent, x.recipient = A) ∧
    (∀ x ∈ (onSendMessage now rooms A (some d)).sent,
      x.event = "receive_message" ∧ x.body = d.message) := by
  have hrun : onSendMessage now rooms A (some d) =
      .done rooms (ioToEmit rooms (roomName d.chatId) "receive_message" d.message now) := by
    simp [onSendMessage_some, hmsg]
  have hrec := @recipient_ioToEmit rooms (roomName d.chatId) "receive_message" d.message now
  have hiff : ∀ s, (∃ x ∈ ioToEmit rooms (roomName d.chatId) "receive_message" d.message now,
      x.recipient = s) ↔ s ∈ roomMembers rooms (roomName d.chatId) := by
    intro s
    rw [← hrec, List.mem_map]
  rw [hrun]
  refine ⟨⟨_, rfl⟩, rfl, hrec, hiff, (hiff A).mpr hA, ?_⟩
  intro x hx
  simp only [Handled.sent, ioToEmit, List.mem_map] at hx
  obtain ⟨s, _, rfl⟩ := hx
  exact ⟨rfl, rfl⟩

/-- Witness of C8: sockets a, b in the room of chat 7, c in the room of chat 8. -/
theorem C8_send_message_reaches_the_room_witness :
    (onSendMessage "t" [("chat_7", "a"), ("chat_7", "b"), ("chat_8", "c")] "a"
        (some { chatId := .num 7, message := .str "hi" })).sent.map (fun x => x.recipient) =
      ["a", "b"] := by
  have h := (C8_send_message_reaches_the_room "t"
    [("chat_7", "a"), ("chat_7", "b"), ("chat_8", "c")] "a"
    { chatId := .num 7, message := .str "hi" } rfl (by decide)).2.2.1
  rw [h]
  decide

/-- C9. `join_chat` with payload (chatId, userId) from socket C: C is in
the room of `chatId` afterwards, and `user_online` with that `userId` goes
to exactly the sockets of the room, as it is after the join, other than C;
C is not among the recipients. The room is the text `chat_` followed by the
chat id as a template literal prints it. The listener makes two calls, in
this order: `socket.join` of that room, on the room table it found, and then
`socket.broadcast.to(room).emit`, on the room table the join left; so every
emit of the listener starts on a table that has C in the room. -/
theorem C9_join_chat_notifies_the_others (now : String) (rooms : Rooms) (C : SocketId)
    (d : EventData) :
    (∃ sent, onJoinChat now rooms C (some d) =
      .done (socketJoin rooms C (roomName d.chatId)) sent) ∧
    C ∈ roomMembers (onJoinChat now rooms C (some d)).rooms (roomName d.chatId) ∧
    (∀ s, (∃ x ∈ (onJoinChat now rooms C (some d)).sent, x.recipient = s) ↔
      s ∈ roomMembers (onJoinChat now rooms C (some d)).rooms (roomName d.chatId) ∧ s ≠ C) ∧
    (∀ x ∈ (onJoinChat now rooms C (some d)).sent,
      x.event = "user_online" ∧ x.body = d.userId ∧ x.recipient ≠ C) ∧
    roomName d.chatId = "chat_" ++ d.chatId.toStr ∧
    (roomName (.num 7) = "chat_7" ∧ roomName (.str "7") = "chat_7" ∧
      roomName (.num 8) = "chat_8" ∧ roomName .undefined = "chat_undefined") ∧
    onJoinChat now rooms C (some d) =
      settle rooms [] (runCalls now C rooms (joinChatCalls d)) ∧
    runCalls now C rooms (joinChatCalls d) =
      [{ call := .join (roomName d.chatId), before := rooms,
         after := socketJoin rooms C (roomName d.chatId), sent := [] },
       { call := .broadcastTo (roomName d.chatId) "user_online" d.userId,
         before := socketJoin rooms C (roomName d.chatId),
         after := socketJoin rooms C (roomName d.chatId),
         sent := broadcastToEmit (socketJoin rooms C (roomName d.chatId)) C
           (roomName d.chatId) "user_online" d.userId now }] ∧
    (∀ r ∈ runCalls now C rooms (joinChatCalls d), ∀ room event body,
      r.call = .broadcastTo room event body →
        room = roomName d.chatId ∧ C ∈ roomMembers r.before room) := by
  have hrec := @recipient_broadcastToEmit (socketJoin rooms C (roomName d.chatId)) C
    (roomName d.chatId) "user_online" d.userId now
  have hiff : ∀ s, (∃ x ∈ broadcastToEmit (socketJoin rooms C (roomName d.chatId)) C
      (roomName d.chatId) "user_online" d.userId now, x.recipient = s) ↔
      s ∈ roomMembers (socketJoin rooms C (roomName d.chatId)) (roomName d.chatId) ∧ s ≠ C := by
    intro s
    have : (∃ x ∈ broadcastToEmit (socketJoin rooms C (roomName d.chatId)) C
        (roomName d.chatId) "user_online" d.userId now, x.recipient = s) ↔
        s ∈ (broadcastToEmit (socketJoin rooms C (roomName d.chatId)) C
          (roomName d.chatId) "user_online" d.userId now).map fun x => x.recipient := by
      rw [List.mem_map]
    rw [this, hrec, List.mem_filter]
    simp
  have hin : C ∈ roomMembers (socketJoin rooms C (roomName d.chatId)) (roomName d.chatId) := by
    rw [mem_roomMembers, mem_socketJoin]
    exact Or.inr rfl
  refine ⟨⟨_, rfl⟩, hin, hiff, ?_, rfl, by decide, rfl, rfl, ?_⟩
  · intro x hx
    simp only [onJoinChat_some, Handled.sent] at hx
    obtain ⟨h1, h2, _⟩ := payload_broadcastToEmit hx
    exact ⟨h1, h2, ((hiff x.recipient).mp ⟨x, hx, rfl⟩).2⟩
  · intro r hr room event body hcall
    have htrace : runCalls now C rooms (joinChatCalls d) =
        [(SocketCall.join (roomName d.chatId)).run now C rooms,
         (SocketCall.broadcastTo (roomName d.chatId) "user_online" d.userId).run now C
           (socketJoin rooms C (roomName d.chatId))] := rfl
    rw [htrace] at hr
    simp only [List.mem_cons, List.mem_singleton, List.not_mem_nil, or_false] at hr
    rcases hr with rfl | rfl
    · cases hcall
    · cases hcall
      exact ⟨rfl, hin⟩

/-- Witness of C9: socket a in the room of chat 7, socket c in the room of
chat 8; socket b joins chat 7 for user 5. The join of `chat_7` runs first,
the emit runs on the table that has b in `chat_7`, and a alone gets
`user_online`. -/
theorem C9_join_chat_notifies_the_others_witness :
    onJoinChat "t" [("chat_7", "a"), ("chat_8", "c")] "b"
        (some { chatId := .num 7, userId := .num 5 }) =
      .done [("chat_7", "a"), ("chat_8", "c"), ("chat_7", "b")]
        [{ recipient := "a", event := "user_online", body := .num 5, timestamp := "t" }] ∧
    (runCalls "t" "b" [("chat_7", "a"), ("chat_8", "c")]
        (joinChatCalls { chatId := .num 7, userId := .num 5 })).map
        (fun r => (r.call, r.before)) =
      [(.join "chat_7", [("chat_7", "a"), ("chat_8", "c")]),
       (.broadcastTo "chat_7" "user_online" (.num 5),
         [("chat_7", "a"), ("chat_8", "c"), ("chat_7", "b")])] := by
  have h := C9_join_chat_notifies_the_others "t" [("chat_7", "a"), ("chat_8", "c")] "b"
    { chatId := .num 7, userId := .num 5 }
  obtain ⟨_, _, _, _, _, _, hrun, htrace, _⟩ := h
  rw [hrun, htrace]
  decide

/-- C10. `leave_chat` with payload (chatId, userId) from socket C: C is no
longer in the room of `chatId`, `user_offline` with that `userId` goes to
exactly the sockets left in the room, C is not among them, and every other
pair (room, socket) of the room table is as before. The room is the text
`chat_` followed by the chat id as a template literal prints it; the
listener calls `socket.leave` of that room and then
`socket.broadcast.to(room).emit` on the room table the leave left. -/
theorem C10_leave_chat_notifies_the_rest (now : String) (rooms : Rooms) (C : SocketId)
    (d : EventData) :
    (∃ sent, onLeaveChat now rooms C (some d) =
      .done (socketLeave rooms C (roomName d.chatId)) sent) ∧
    C ∉ roomMembers (onLeaveChat now rooms C (some d)).rooms (roomName d.chatId) ∧
    (∀ s, (∃ x ∈ (onLeaveChat now rooms C (some d)).sent, x.recipient = s) ↔
      s ∈ roomMembers (onLeaveChat now rooms C (some d)).rooms (roomName d.chatId)) ∧
    (∀ x ∈ (onLeaveChat now rooms C (some d)).sent,
      x.event = "user_offline" ∧ x.body = d.userId ∧ x.recipient ≠ C) ∧
    (∀ s, s ≠ C → (s ∈ roomMembers (onLeaveChat now rooms C (some d)).rooms (roomName d.chatId) ↔
      s ∈ roomMembers rooms (roomName d.chatId))) ∧
    (∀ room, room ≠ roomName d.chatId →
      roomMembers (onLeaveChat now rooms C (some d)).rooms room = roomMembers rooms room) ∧
    roomName d.chatId = "chat_" ++ d.chatId.toStr ∧
    (roomName (.num 7) = "chat_7" ∧ roomName (.str "7") = "chat_7" ∧
      roomName (.num 8) = "chat_8" ∧ roomName .null = "chat_null") ∧
    onLeaveChat now rooms C (some d) =
      settle rooms [] (runCalls now C rooms (leaveChatCalls d)) ∧
    runCalls now C rooms (leaveChatCalls d) =
      [{ call := .leave (roomName d.chatId), before := rooms,
         after := socketLeave rooms C (roomName d.chatId), sent := [] },
       { call := .broadcastTo (roomName d.chatId) "user_offline" d.userId,
         before := socketLeave rooms C (roomName d.chatId),
         after := socketLeave rooms C (roomName d.chatId),
         sent := broadcastToEmit (socketLeave rooms C (roomName d.chatId)) C
           (roomName d.chatId) "user_offline" d.userId now }] := by
  have hout : C ∉ roomMembers (socketLeave rooms C (roomName d.chatId)) (roomName d.chatId) := by
    rw [mem_roomMembers, mem_socketLeave]
    intro h
    exact h.2 rfl
  have hrec := @recipient_broadcastToEmit (socketLeave rooms C (roomName d.chatId)) C
    (roomName d.chatId) "user_offline" d.userId now
  have hiff : ∀ s, (∃ x ∈ broadcastToEmit (socketLeave rooms C (roomName d.chatId)) C
      (roomName d.chatId) "user_offline" d.userId now, x.recipient = s) ↔
      s ∈ roomMembers (socketLeave rooms C (roomName d.chatId)) (roomName d.chatId) := by
    intro s
    have : (∃ x ∈ broadcastToEmit (socketLeave rooms C (roomName d.chatId)) C
        (roomName d.chatId) "user_offline" d.userId now, x.recipient = s) ↔
        s ∈ (broadcastToEmit (socketLeave rooms C (roomName d.chatId)) C
          (roomName d.chatId) "user_offline" d.userId now).map fun x => x.recipient := by
      rw [List.mem_map]
    rw [this, hrec, List.mem_filter]
    constructor
    · intro h; exact h.1
    · intro h
      refine ⟨h, ?_⟩
      simp only [bne_iff_ne, ne_eq]
      rintro rfl
      exact hout h
  refine ⟨⟨_, rfl⟩, hout, hiff, ?_, ?_, ?_, rfl, by decide, rfl, rfl⟩
  · intro x hx
    simp only [onLeaveChat_some, Handled.sent] at hx
    obtain ⟨h1, h2, _⟩ := payload_broadcastToEmit hx
    refine ⟨h1, h2, ?_⟩
    intro hC
    exact hout (hC ▸ (hiff x.recipient).mp ⟨x, hx, rfl⟩)
  · intro s hs
    simp only [onLeaveChat_some, Handled.rooms]
    rw [mem_roomMembers, mem_roomMembers, mem_socketLeave]
    constructor
    · intro h; exact h.1
    · intro h
      refine ⟨h, ?_⟩
      intro heq
      exact hs (Prod.mk.inj heq).2
  · intro room hroom
    simp only [onLeaveChat_some, Handled.rooms, roomMembers, socketLeave]
    rw [List.filter_filter]
    congr 1
    apply List.filter_congr
    intro p _
    by_cases hp : p.1 = room
    · have : ¬ p.1 = roomName d.chatId := fun h => hroom (hp ▸ h)
      simp [hp, this]
      exact Or.inl hroom
    · simp [hp]

/-- Witness of C10: sockets a and b in the room of chat 7, b and c in the
room of chat 8; socket b leaves chat 7 for user 5. The pair of b and
`chat_7` goes, b stays in `chat_8`, and a alone gets `user_offline`. -/
theorem C10_leave_chat_notifies_the_rest_witness :
    onLeaveChat "t" [("chat_7", "a"), ("chat_7", "b"), ("chat_8", "b"), ("chat_8", "c")] "b"
        (some { chatId := .num 7, userId := .num 5 }) =
      .done [("chat_7", "a"), ("chat_8", "b"), ("chat_8", "c")]
        [{ recipient := "a", event := "user_offline", body := .num 5, timestamp := "t" }] ∧
    (runCalls "t" "b" [("chat_7", "a"), ("chat_7", "b"), ("chat_8", "b"), ("chat_8", "c")]
        (leaveChatCalls { chatId := .num 7, userId := .num 5 })).map
        (fun r => (r.call, r.after)) =
      [(.leave "chat_7", [("chat_7", "a"), ("chat_8", "b"), ("chat_8", "c")]),
       (.broadcastTo "chat_7" "user_offline" (.num 5),
         [("chat_7", "a"), ("chat_8", "b"), ("chat_8", "c")])] := by
  have h := C10_leave_chat_notifies_the_rest "t"
    [("chat_7", "a"), ("chat_7", "b"), ("chat_8", "b"), ("chat_8", "c")] "b"
    { chatId := .num 7, userId := .num 5 }
  obtain ⟨_, _, _, _, _, _, _, _, hrun, htrace⟩ := h
  rw [hrun, htrace]
  decide

/-- C11. Socket C handles `join_chat` and then `leave_chat` for the same
chat id: afterwards C is not in the room of that chat, and every other pair
(room, socket) is in the room table exactly when it was before the two
events. -/
theorem C11_join_then_leave (now1 now2 : String) (rooms : Rooms) (C : SocketId)
    (d1 d2 : EventData) (hR : d2.chatId = d1.chatId) :
    C ∉ roomMembers
      (onLeaveChat now2 (onJoinChat now1 rooms C (some d1)).rooms C (some d2)).rooms
      (roomName d1.chatId) ∧
    (∀ room s, (room, s) ≠ (roomName d1.chatId, C) →
      (s ∈ roomMembers
          (onLeaveChat now2 (onJoinChat now1 rooms C (some d1)).rooms C (some d2)).rooms room ↔
        s ∈ roomMembers rooms room)) := by
  simp only [onJoinChat_some, onLeaveChat_some, Handled.rooms, hR]
  constructor
  · rw [mem_roomMembers, mem_socketLeave]
    intro h
    exact h.2 rfl
  · intro room s hne
    rw [mem_roomMembers, mem_roomMembers, mem_socketLeave, mem_socketJoin]
    constructor
    · rintro ⟨h | h, _⟩
      · exact h
      · exact absurd h hne
    · intro h
      exact ⟨Or.inl h, hne⟩

/-- Witness of C11: socket a joins and leaves chat 7, which socket b is in. -/
theorem C11_join_then_leave_witness :
    "a" ∉ roomMembers
      (onLeaveChat "t2" (onJoinChat "t1" [("chat_7", "b")] "a"
        (some { chatId := .num 7, userId := .num 1 })).rooms "a"
        (some { chatId := .num 7, userId := .num 1 })).rooms
      (roomName (.num 7)) :=
  (C11_join_then_leave "t1" "t2" [("chat_7", "b")] "a"
    { chatId := .num 7, userId := .num 1 } { chatId := .num 7, userId := .num 1 } rfl).1

/-- C12. Socket C handles `join_chat` for the same chat id twice: the room
table after the second event is the room table after the first. -/
theorem C12_join_is_idempotent (now1 now2 : String) (rooms : Rooms) (C : SocketId)
    (d1 d2 : EventData) (hR : d2.chatId = d1.chatId) :
    (onJoinChat now2 (onJoinChat now1 rooms C (some d1)).rooms C (some d2)).rooms =
      (onJoinChat now1 rooms C (some d1)).rooms := by
  simp only [onJoinChat_some, Handled.rooms, hR]
  apply socketJoin_of_mem
  rw [mem_socketJoin]
  exact Or.inr rfl

/-- Witness of C12: socket a joins chat 7 twice and is in its room once. -/
theorem C12_join_is_idempotent_witness :
    (onJoinChat "t2" (onJoinChat "t1" [("chat_7", "b")] "a"
        (some { chatId := .num 7, userId := .num 1 })).rooms "a"
        (some { chatId := .num 7, userId := .num 1 })).rooms =
      [("chat_7", "b"), ("chat_7", "a")] := by
  rw [C12_join_is_idempotent "t1" "t2" [("chat_7", "b")] "a"
    { chatId := .num 7, userId := .num 1 } { chatId := .num 7, userId := .num 1 } rfl]
  decide

/-- C13. The transport of socket C closes: afterwards C is in no room, every
other socket is in a room exactly when it was before, and nothing is sent to
any connection. -/
theorem C13_disconnect_cleans_up_silently (rooms : Rooms) (C : SocketId) :
    (∀ room, C ∉ roomMembers (transportClose rooms C).rooms room) ∧
    (∀ room s, s ≠ C →
      (s ∈ roomMembers (transportClose rooms C).rooms room ↔ s ∈ roomMembers rooms room)) ∧
    (transportClose rooms C).sent = [] ∧
    (onError rooms C).rooms = rooms ∧ (onError rooms C).sent = [] := by
  refine ⟨?_, ?_, rfl, rfl, rfl⟩ <;>
    simp only [transportClose, onDisconnect, Handled.rooms]
  · intro room h
    rw [mem_roomMembers, mem_socketLeaveAll] at h
    exact h.2 rfl
  · intro room s hs
    rw [mem_roomMembers, mem_roomMembers, mem_socketLeaveAll]
    constructor
    · intro h; exact h.1
    · intro h; exact ⟨h, hs⟩

/-- C14 (amended). A payload without `chatId` is not dropped: the handlers
act on the room `chat_undefined`. `join_chat` puts the socket into that room
and sends `user_online` to its other sockets, `leave_chat` takes the socket
out of it and sends `user_offline` to the sockets left, a `send_message` that
carries a message is sent to every socket of it; none of them throws and no
other room changes. -/
theorem C14_missing_chatId_names_chat_undefined (now : String) (rooms : Rooms) (C : SocketId)
    (d : EventData) (hmissing : d.chatId = .undefined) :
    onJoinChat now rooms C (some d) =
      .done (socketJoin rooms C "chat_undefined")
        (broadcastToEmit (socketJoin rooms C "chat_undefined") C "chat_undefined"
          "user_online" d.userId now) ∧
    onLeaveChat now rooms C (some d) =
      .done (socketLeave rooms C "chat_undefined")
        (broadcastToEmit (socketLeave rooms C "chat_undefined") C "chat_undefined"
          "user_offline" d.userId now) ∧
    (d.message.nullish = false →
      onSendMessage now rooms C (some d) =
        .done rooms (ioToEmit rooms "chat_undefined" "receive_message" d.message now)) ∧
    (∀ room, room ≠ "chat_undefined" →
      roomMembers (onJoinChat now rooms C (some d)).rooms room = roomMembers rooms room ∧
      roomMembers (onLeaveChat now rooms C (some d)).rooms room = roomMembers rooms room) := by
  have hroom : roomName d.chatId = "chat_undefined" := by
    rw [hmissing]
    decide
  refine ⟨?_, ?_, ?_, ?_⟩
  · simp only [onJoinChat_some, hroom]
  · simp only [onLeaveChat_some, hroom]
  · intro hmsg
    simp [onSendMessage_some, hroom, hmsg]
  · intro room hne
    simp only [onJoinChat_some, onLeaveChat_some, Handled.rooms, hroom]
    exact ⟨roomMembers_socketJoin_other hne, roomMembers_socketLeave_other hne⟩

/-- Witness of C14 (amended): socket a sends `join_chat` with a user id only
while socket b is in `chat_undefined`. -/
theorem C14_missing_chatId_names_chat_undefined_witness :
    onJoinChat "t" [("chat_undefined", "b")] "a" (some { userId := .num 1 }) =
      .done (socketJoin [("chat_undefined", "b")] "a" "chat_undefined")
        (broadcastToEmit (socketJoin [("chat_undefined", "b")] "a" "chat_undefined") "a"
          "chat_undefined" "user_online" (.num 1) "t") :=
  (C14_missing_chatId_names_chat_undefined "t" [("chat_undefined", "b")] "a"
    { userId := .num 1 } rfl).1

/-- Counterexample to C14 as stated: a `join_chat` without `chatId` puts the
socket into the room `chat_undefined` and sends `user_online` to the socket
already there; a `send_message` without `message` throws. -/
theorem C14_counterexample :
    onJoinChat "t" [("chat_undefined", "b")] "a" (some { userId := .num 1 }) =
      .done [("chat_undefined", "b"), ("chat_undefined", "a")]
        [⟨"b", "user_online", .num 1, "t"⟩] ∧
    onSendMessage "t" [("chat_7", "a")] "a" (some { chatId := .num 7 }) =
      .threw [("chat_7", "a")] [] := by
  constructor <;> decide

/-- C15 (amended). The handler `sendMessage` refuses, with the server
unchanged: 401 when the requester is not authenticated; else 400 when the
content is missing and the message is a text message; else the storage
error of the first query when the chat id of the path is not an integer;
else 404 when the chat is absent; else 403 when the requester is not a
member of the chat. When none of these applies it is the call of
`dbAddMessage`: 201 with the stored message when the insert goes through
(a content that is not there is stored as `null`), the error and no stored
message when it is refused. The server changes only in that last case. -/
theorem C15_sendMessage_gate (env : Env) (db : Db) (user : Option Int) (chatId : Option Int)
    (body : MessageBody) :
    (user.getD 0 = 0 → sendMessage env db user chatId body = (db, .fail 401 "Unauthorized")) ∧
    (user.getD 0 ≠ 0 → body.content.truthy = false → body.messageType = .str "text" →
      sendMessage env db user chatId body = (db, .fail 400 "Message content required")) ∧
    (∀ cid, user.getD 0 ≠ 0 → (body.content.truthy = true ∨ body.messageType ≠ .str "text") →
      chatId = some cid → dbGetChatById db.tables cid = none →
      sendMessage env db user chatId body = (db, .fail 404 "Chat not found")) ∧
    (∀ cid, user.getD 0 ≠ 0 → (body.content.truthy = true ∨ body.messageType ≠ .str "text") →
      chatId = some cid → (dbGetChatById db.tables cid).isSome = true →
      dbIsUserInChat db.tables cid (user.getD 0) = false →
      sendMessage env db user chatId body = (db, .fail 403 "Forbidden")) ∧
    (∀ cid, user.getD 0 ≠ 0 → (body.content.truthy = true ∨ body.messageType ≠ .str "text") →
      chatId = some cid → (dbGetChatById db.tables cid).isSome = true →
      dbIsUserInChat db.tables cid (user.getD 0) = true →
      (sendMessage env db user chatId body).1 =
        (dbAddMessage env db cid (user.getD 0) body.content body.messageType).1 ∧
      (env.messageInsertFails = false →
        ∃ m, (sendMessage env db user chatId body).2 = .json 201 m ∧
          m.chat_id = cid ∧ m.sender_id = user.getD 0 ∧ m.content = sqlValue body.content ∧
          m.message_type = sqlValue body.messageType ∧
          (sendMessage env db user chatId body).1.tables.messages =
            db.tables.messages ++ [m]) ∧
      (env.messageInsertFails = true →
        (sendMessage env db user chatId body).2 = .raise .messageRejected ∧
        (sendMessage env db user chatId body).1.tables = db.tables)) ∧
    ((sendMessage env db user chatId body).1 ≠ db →
      user.getD 0 ≠ 0 ∧ (body.content.truthy = true ∨ body.messageType ≠ .str "text") ∧
      ∃ cid, chatId = some cid ∧ (dbGetChatById db.tables cid).isSome = true ∧
        dbIsUserInChat db.tables cid (user.getD 0) = true) ∧
    (user.getD 0 ≠ 0 → (body.content.truthy = true ∨ body.messageType ≠ .str "text") →
      chatId = none → sendMessage env db user chatId body = (db, .raise .badChatId)) := by
  refine ⟨?_, ?_, ?_, ?_, ?_, ?_, ?_⟩
  · intro h
    simp [sendMessage, h]
  · intro h hc ht
    simp [sendMessage, h, hc, ht]
  · intro cid h hc hid hchat
    have hc2 : (!body.content.truthy && body.messageType == .str "text") = false := by
      rcases hc with hc | hc
      · simp [hc]
      · simp [hc]
    simp [sendMessage, h, hc2, hid, hchat]
  · intro cid h hc hid hchat hmem
    have hc2 : (!body.content.truthy && body.messageType == .str "text") = false := by
      rcases hc with hc | hc
      · simp [hc]
      · simp [hc]
    obtain ⟨c, hcs⟩ := Option.isSome_iff_exists.mp hchat
    simp [sendMessage, h, hc2, hid, hcs, hmem]
  · intro cid h hc hid hchat hmem
    have hc2 : (!body.content.truthy && body.messageType == .str "text") = false := by
      rcases hc with hc | hc
      · simp [hc]
      · simp [hc]
    obtain ⟨c, hcs⟩ := Option.isSome_iff_exists.mp hchat
    have hrun : sendMessage env db user chatId body =
        match dbAddMessage env db cid (user.getD 0) body.content body.messageType with
        | (db1, .ok message) => (db1, .json 201 message)
        | (db1, .error e) => (db1, .raise e) := by
      simp [sendMessage, h, hc2, hid, hcs, hmem]
    refine ⟨?_, ?_, ?_⟩
    · rw [hrun]
      split <;> rename_i heq <;> rw [heq]
    · intro hf
      rw [hrun, dbAddMessage_ok _ _ _ _ _ _ hf]
      refine ⟨_, rfl, rfl, rfl, rfl, ?_, rfl⟩
      exact congrArg sqlValue (textByDefault_idem body.message_type)
    · intro hf
      rw [hrun, dbAddMessage_fails _ _ _ _ _ _ hf]
      exact ⟨rfl, rfl⟩
  · intro hne
    by_cases h : user.getD 0 = 0
    · exact absurd (by simp [sendMessage, h]) hne
    · by_cases hc2 : (!body.content.truthy && body.messageType == .str "text") = true
      · exact absurd (by simp [sendMessage, h, hc2]) hne
      · have hc : body.content.truthy = true ∨ body.messageType ≠ .str "text" := by
          simp only [Bool.and_eq_true, Bool.not_eq_true', beq_iff_eq, not_and] at hc2
          by_cases ht : body.content.truthy = true
          · exact Or.inl ht
          · exact Or.inr (hc2 (by simpa using ht))
        refine ⟨h, hc, ?_⟩
        cases hid : chatId with
        | none => exact absurd (by simp [sendMessage, h, hc2, hid]) hne
        | some cid =>
          refine ⟨cid, rfl, ?_⟩
          cases hchat : dbGetChatById db.tables cid with
          | none => exact absurd (by simp [sendMessage, h, hc2, hid, hchat]) hne
          | some c =>
            refine ⟨rfl, ?_⟩
            cases hmem : dbIsUserInChat db.tables cid (user.getD 0) with
            | true => rfl
            | false => exact absurd (by simp [sendMessage, h, hc2, hid, hchat, hmem]) hne
  · intro h hc hid
    have hc2 : (!body.content.truthy && body.messageType == .str "text") = false := by
      rcases hc with hc | hc
      · simp [hc]
      · simp [hc]
    simp [sendMessage, h, hc2, hid]

/-- Witness of C15: user 3 of `exampleDb` is not in chat 2 and gets 403;
user 2 is and the message is stored; chat 5 is not there and user 2 gets
404; an image message of user 2 without content is stored with content
`null`. -/
theorem C15_sendMessage_gate_witness :
    sendMessage (numericEnv 9) exampleDb (some 3) (some 2) { content := .str "hi" } =
      (exampleDb, .fail 403 "Forbidden") ∧
    (sendMessage (numericEnv 9) exampleDb (some 2) (some 2)
        { content := .str "hi" }).1.tables.messages =
      [⟨1, 2, 2, .str "hi", .str "text", 9⟩] ∧
    sendMessage (numericEnv 9) exampleDb (some 2) (some 5) { content := .str "hi" } =
      (exampleDb, .fail 404 "Chat not found") ∧
    (sendMessage (numericEnv 9) exampleDb (some 2) (some 2)
        { message_type := .str "image" }).2 =
      .json 201 ⟨1, 2, 2, .null, .str "image", 9⟩ := by
  have h := C15_sendMessage_gate (numericEnv 9) exampleDb (some 3) (some 2)
    { content := .str "hi" }
  have h5 := C15_sendMessage_gate (numericEnv 9) exampleDb (some 2) (some 5)
    { content := .str "hi" }
  exact ⟨h.2.2.2.1 2 (by decide) (Or.inl rfl) rfl (by decide) (by decide), by decide,
    h5.2.2.1 5 (by decide) (Or.inl rfl) rfl (by decide), by decide⟩

/-- Counterexample to C15 as stated: user 2 of `exampleDb`, authenticated,
sends the text "hi" to `/chat/abc/messages`. `Number("abc")` is `NaN`, no
chat has that id, and the answer is not 404: the first query throws and the
storage error is what the handler ends with. Nothing is stored. -/
theorem C15_counterexample :
    sendMessage (numericEnv 9) exampleDb (some 2) none { content := .str "hi" } =
      (exampleDb, .raise .badChatId) ∧
    (∀ status message,
      sendMessage (numericEnv 9) exampleDb (some 2) none { content := .str "hi" } ≠
        (exampleDb, .fail status message)) := by
  have hrun : sendMessage (numericEnv 9) exampleDb (some 2) none { content := .str "hi" } =
      (exampleDb, .raise .badChatId) := by decide
  refine ⟨hrun, ?_⟩
  intro status message heq
  rw [hrun] at heq
  cases heq

/-- C16. The middleware `errorHandler`. In production an error that is not
operational gives status 500 with the fixed message and no stack trace; an
operational error gives its `httpCode` and message and no stack trace.
Outside production the response carries the error's `httpCode`, 500 when it
has none, its message and its stack trace. -/
theorem C16_errorHandler_masks_in_production (nodeEnv : Option String) (err : JsError) :
    (nodeEnv = some "production" → err.isOperational = false →
      errorHandler nodeEnv err =
        { statusCode := some 500, status := "error", message := "Something went very wrong!",
          stackTrace := none }) ∧
    (nodeEnv = some "production" → err.isOperational = true →
      errorHandler nodeEnv err =
        { statusCode := err.httpCode, status := "error", message := err.message,
          stackTrace := none }) ∧
    (nodeEnv ≠ some "production" →
      (errorHandler nodeEnv err).message = err.message ∧
      (errorHandler nodeEnv err).stackTrace = some err.stack ∧
      (errorHandler nodeEnv err).status = "error" ∧
      (err.httpCode = none → (errorHandler nodeEnv err).statusCode = some 500) ∧
      (∀ c, err.httpCode = some c → c ≠ 0 → (errorHandler nodeEnv err).statusCode = some c)) ∧
    (∀ code message stack,
      errorHandler (some "production") (AppError code message stack) =
        { statusCode := some code, status := "error", message := message,
          stackTrace := none }) := by
  refine ⟨?_, ?_, ?_, ?_⟩
  · intro hp ho
    simp [errorHandler, hp, ho]
  · intro hp ho
    simp [errorHandler, hp, ho]
  · intro hp
    refine ⟨?_, ?_, ?_, ?_, ?_⟩ <;> simp only [errorHandler, hp, if_false]
    · intro h
      simp [h, httpCodeOr500]
    · intro c h hc
      simp [h, httpCodeOr500, hc]
  · intro code message stack
    simp [errorHandler, AppError]

/-- Witness of C16: an error thrown by a query, in production and in
development. -/
theorem C16_errorHandler_masks_in_production_witness :
    errorHandler (some "production") { message := "relation missing", stack := "at query" } =
      { statusCode := some 500, status := "error", message := "Something went very wrong!",
        stackTrace := none } ∧
    (errorHandler (some "development")
      { message := "relation missing", stack := "at query" }).stackTrace = some "at query" :=
  ⟨(C16_errorHandler_masks_in_production (some "production")
      { message := "relation missing", stack := "at query" }).1 rfl rfl,
   ((C16_errorHandler_masks_in_production (some "development")
      { message := "relation missing", stack := "at query" }).2.2.1 (by decide)).2.1⟩

/-- C17 (amended). The limit `getMessages` passes on is 50 when the `limit`
parameter is absent or empty and `Math.min(Number(limit), 200)` otherwise.
It is at most 200 unless `Number(limit)` is `NaN`, and then it is `NaN`.
A response of `getMessages` never carries more than 200 messages. -/
theorem C17_limit_is_capped (q : QueryParam) :
    getMessagesLimit .absent = .fin 50 ∧
    getMessagesLimit .empty = .fin 50 ∧
    (∀ x, getMessagesLimit (.given x) = mathMin x (.fin 200)) ∧
    (∀ a : ℚ, getMessagesLimit (.given (.fin a)) = .fin (min a 200)) ∧
    getMessagesLimit (.given .nan) = .nan ∧
    (q ≠ .given .nan → (getMessagesLimit q).le (.fin 200) = true) ∧
    (∀ db user chatId before rows,
      (getMessages db user chatId q before).2 = .json 200 rows → rows.length ≤ 200) := by
  refine ⟨rfl, rfl, fun _ => rfl, fun _ => rfl, rfl, getMessagesLimit_le q, ?_⟩
  intro db user chatId before rows h
  unfold getMessages at h
  split at h
  · simp at h
  · split at h
    · simp at h
    · split at h
      · simp at h
      · split at h
        · simp at h
        · rename_i cid _ _ _ _
          unfold dbGetMessagesByChatId at h
          cases hl : limitParam (getMessagesLimit q) with
          | none =>
            rw [hl] at h
            simp at h
          | some n =>
            rw [hl] at h
            simp only [Outcome.json.injEq, true_and] at h
            have hq : q ≠ .given .nan := by
              rintro rfl
              simp [getMessagesLimit, mathMin, limitParam] at hl
            have hn : n ≤ 200 := limitParam_le hl (getMessagesLimit_le q hq)
            rw [← h, List.length_reverse, List.length_take]
            exact le_trans (min_le_left _ _) hn

/-- Witness of C17 (amended): `limit=1000` is cut to 200. -/
theorem C17_limit_is_capped_witness :
    getMessagesLimit (.given (.fin 1000)) = .fin 200 := by
  rw [(C17_limit_is_capped .absent).2.2.2.1 1000]
  norm_num

/-- Counterexample to C17 as stated: for `limit=abc`, `Number` gives `NaN`
and the limit passed is `Math.min(NaN, 200)`, that is `NaN`, which is not at
most 200. -/
theorem C17_counterexample :
    getMessagesLimit (.given .nan) = .nan ∧
    (getMessagesLimit (.given .nan)).le (.fin 200) = false :=
  ⟨rfl, rfl⟩

/-- C18. The test of `passwordRegex` in `createUser` passes exactly for the
strings of 8 to 16 characters that hold an uppercase letter, a lowercase
letter, a digit and one of `@$!%*?&` and nothing but letters, digits and
these special characters. A request whose password is any other string is
answered 400 and the server, with its table of users, is unchanged. On a
request that has name, email and dob, `createUser` with such a password goes
on to the lookup of the email and, when the email is free and the insert
goes through, answers 201 with the new user, who is then in the table; with
any other password that is not empty it answers 400 with the message on the
password, and it gives that answer for no password of the policy. -/
theorem C18_password_policy (p : String) :
    regexTest passwordRegex p = passwordPolicy p ∧
    (passwordPolicy p = true ↔
      8 ≤ p.toList.length ∧ p.toList.length ≤ 16 ∧
      (∃ c ∈ p.toList, c.isUpper = true) ∧ (∃ c ∈ p.toList, c.isLower = true) ∧
      (∃ c ∈ p.toList, c.isDigit = true) ∧ (∃ c ∈ p.toList, isSpecialChar c = true) ∧
      ∀ c ∈ p.toList,
        c.isUpper = true ∨ c.isLower = true ∨ c.isDigit = true ∨ isSpecialChar c = true) ∧
    (∀ env db body, body.password = some p → passwordPolicy p = false →
      ∃ message, createUser env db body = (db, .fail 400 message)) ∧
    (∀ env db name email dob, name ≠ "" → email ≠ "" → dob ≠ "" →
      (passwordPolicy p = true →
        createUser env db ⟨some name, some email, some dob, some p⟩ =
          match dbGetUserByEmail db.tables email with
          | some _ => (db, .fail 400 "A user with this email already exists.")
          | none =>
            match dbCreateUser env db name email with
            | (db1, .ok newUser) => (db1, .json 201 newUser)
            | (db1, .error e) => (db1, .raise e)) ∧
      (passwordPolicy p = true → dbGetUserByEmail db.tables email = none →
        env.userInsertFails = false →
        (createUser env db ⟨some name, some email, some dob, some p⟩).2 =
          .json 201 ⟨db.userSeq, name, email⟩ ∧
        (createUser env db ⟨some name, some email, some dob, some p⟩).1.tables.users =
          db.tables.users ++ [⟨db.userSeq, name, email⟩]) ∧
      (p ≠ "" →
        (createUser env db ⟨some name, some email, some dob, some p⟩ =
          (db, .fail 400
            "Password must be 8–16 chars, include uppercase, lowercase, number & special char.") ↔
          passwordPolicy p = false))) := by
  refine ⟨regexTest_passwordRegex p, ?_, ?_, ?_⟩
  · simp only [passwordPolicy, Bool.and_eq_true, decide_eq_true_eq, List.any_eq_true,
      List.all_eq_true, Bool.or_eq_true]
    constructor
    · rintro ⟨⟨⟨⟨⟨⟨h1, h2⟩, h3⟩, h4⟩, h5⟩, h6⟩, h7⟩
      refine ⟨h1, h2, h3, h4, h5, h6, ?_⟩
      intro c hc
      have hclass := h7 c hc
      rw [or_assoc, or_assoc] at hclass
      exact hclass
    · rintro ⟨h1, h2, h3, h4, h5, h6, h7⟩
      refine ⟨⟨⟨⟨⟨⟨h1, h2⟩, h3⟩, h4⟩, h5⟩, h6⟩, ?_⟩
      intro c hc
      have hclass := h7 c hc
      rw [or_assoc, or_assoc]
      exact hclass
  · intro env db body hp hpol
    unfold createUser
    split
    · exact ⟨_, rfl⟩
    · have htest : regexTest passwordRegex (body.password.getD "") = false := by
        rw [hp, Option.getD_some, regexTest_passwordRegex, hpol]
      simp only [htest, Bool.not_false, if_true]
      exact ⟨_, rfl⟩
  · intro env db name email dob hn he hd
    refine ⟨?_, ?_, ?_⟩
    · intro hpol
      rw [createUser_present env db name email dob p hn he hd (passwordPolicy_ne_empty hpol),
        if_pos hpol]
    · intro hpol hfree hins
      rw [createUser_present env db name email dob p hn he hd (passwordPolicy_ne_empty hpol),
        if_pos hpol, hfree]
      simp [dbCreateUser, hins]
    · intro hp
      rw [createUser_present env db name email dob p hn he hd hp]
      cases hpol : passwordPolicy p with
      | false => simp
      | true =>
        simp only [if_true]
        constructor
        · intro h
          exfalso
          revert h
          cases dbGetUserByEmail db.tables email with
          | some u =>
            intro h
            have hmsg := (Outcome.fail.inj (Prod.mk.inj h).2).2
            exact absurd hmsg (by decide)
          | none =>
            simp only []
            cases hrun : dbCreateUser env db name email with
            | mk db1 res =>
              cases res with
              | ok u => intro h; cases (Prod.mk.inj h).2
              | error e => intro h; cases (Prod.mk.inj h).2
        · intro h
          cases h

/-- Witness of C18, on a server holding `exampleTables` whose next user id
is 4: the password `Abcdef1!` passes and user dee is created with 201; a
password without an uppercase letter, and one of the policy but for a space
in it, are refused with 400 and no user is stored. -/
theorem C18_password_policy_witness :
    (createUser (numericEnv 9) { exampleDb with userSeq := 4 }
        ⟨some "dee", some "dee@x", some "2000-01-01", some "Abcdef1!"⟩).2 =
      .json 201 ⟨4, "dee", "dee@x"⟩ ∧
    (createUser (numericEnv 9) { exampleDb with userSeq := 4 }
        ⟨some "dee", some "dee@x", some "2000-01-01", some "Abcdef1!"⟩).1.tables.users =
      [⟨1, "ann", "ann@x"⟩, ⟨2, "bob", "bob@x"⟩, ⟨3, "cy", "cy@x"⟩, ⟨4, "dee", "dee@x"⟩] ∧
    createUser (numericEnv 9) { exampleDb with userSeq := 4 }
        ⟨some "dee", some "dee@x", some "2000-01-01", some "abcdef1!"⟩ =
      ({ exampleDb with userSeq := 4 }, .fail 400
        "Password must be 8–16 chars, include uppercase, lowercase, number & special char.") ∧
    createUser (numericEnv 9) { exampleDb with userSeq := 4 }
        ⟨some "dee", some "dee@x", some "2000-01-01", some "Abcdef 1!"⟩ =
      ({ exampleDb with userSeq := 4 }, .fail 400
        "Password must be 8–16 chars, include uppercase, lowercase, number & special char.") := by
  have hok := ((C18_password_policy "Abcdef1!").2.2.2 (numericEnv 9)
    { exampleDb with userSeq := 4 } "dee" "dee@x" "2000-01-01"
    (by decide) (by decide) (by decide)).2.1 (by decide) (by decide) rfl
  have hlow := ((C18_password_policy "abcdef1!").2.2.2 (numericEnv 9)
    { exampleDb with userSeq := 4 } "dee" "dee@x" "2000-01-01"
    (by decide) (by decide) (by decide)).2.2 (by decide)
  have hspace := ((C18_password_policy "Abcdef 1!").2.2.2 (numericEnv 9)
    { exampleDb with userSeq := 4 } "dee" "dee@x" "2000-01-01"
    (by decide) (by decide) (by decide)).2.2 (by decide)
  exact ⟨hok.1, hok.2, hlow.mpr (by decide), hspace.mpr (by decide)⟩

/-- C19 (the code does not do this). A `GET /user/all` reaches `listUsers`
whatever credential it carries, also none, with no `req.user` set, and
`listUsers` answers 200 with the users; the same request without a
credential to `GET /user`, whose route names `authHandler`, is refused with
401. The router takes `/user/ALL` and `/user/all/` for the same route. -/
theorem C19_user_listing_is_not_guarded (verify : String → Option Int)
    (authorization cookieToken : Option String) (db : Db) :
    userRouter verify ⟨"GET", ["all"], authorization, cookieToken⟩ =
      .reached .listUsers none ∧
    listUsers db = (db, .json 200 (dbGetAllUsers db.tables)) ∧
    userRouter verify ⟨"GET", [], none, none⟩ =
      .rejected 401 "Unauthorized: No token provided" ∧
    userRouter verify ⟨"GET", ["ALL"], authorization, cookieToken⟩ =
      .reached .listUsers none ∧
    userRouter verify ⟨"GET", ["all", ""], authorization, cookieToken⟩ =
      .reached .listUsers none := by
  refine ⟨?_, rfl, ?_, ?_, ?_⟩
  · have hfind : (userRoutes.find? fun r =>
        r.method == "GET" && pathFits r.path ["all"]) =
        some ⟨"GET", [.lit "all"], [.listUsers]⟩ := by decide
    simp only [userRouter, hfind, runChain]
  · have hfind : (userRoutes.find? fun r =>
        r.method == "GET" && pathFits r.path []) =
        some ⟨"GET", [], [.authHandler, .getUser]⟩ := by decide
    have hauth : authHandler verify ⟨"GET", [], none, none⟩ =
        .error (401, "Unauthorized: No token provided") := by
      have htok : requestToken ⟨"GET", [], none, none⟩ = none := by decide
      simp only [authHandler, htok]
    simp only [userRouter, hfind, runChain, hauth]
  · have hfind : (userRoutes.find? fun r =>
        r.method == "GET" && pathFits r.path ["ALL"]) =
        some ⟨"GET", [.lit "all"], [.listUsers]⟩ := by decide
    simp only [userRouter, hfind, runChain]
  · have hfind : (userRoutes.find? fun r =>
        r.method == "GET" && pathFits r.path ["all", ""]) =
        some ⟨"GET", [.lit "all"], [.listUsers]⟩ := by decide
    simp only [userRouter, hfind, runChain]

end ChatBackend
